import Mathlib

/-
Shallow embedding of the cafe-sales data-repair program
(src/dataset_scripts/main.py) and proofs about it.

Modelling conventions:
* A dataframe cell is a `Val`: a true null (pandas NaN/NaT), a string, a
  number, or a structured date (the result of pd.to_datetime).
* Numbers are exact scaled decimals (`Dec`): an integer mantissa over a
  power of ten, kept normalized (no trailing zero digits in the mantissa)
  so that decidable equality of the representation coincides with equality
  of the denoted rational.  `Dec.toRat` gives the denoted rational number.
  This idealizes Python floats as exact decimals.
* `pd.to_numeric(errors='coerce')` is `toNumeric`; its string grammar is
  an (optionally signed) decimal literal, an idealization of float().
* `pd.to_datetime` is abstracted by `parseDateVal`; its string grammar is
  an ISO-like YYYY-MM-DD form.  The claims proved here do not depend on
  the exact date grammar, only on parse success/failure being a function
  of the cell and on the whole-column try/except behaviour.
* A dataset is a `List Row` in file order; pandas row-wise operations
  become `List.map` / `List.filter`.
-/

namespace CafeSales

/-- Exact scaled decimal: the rational number `man / 10 ^ exp`. -/
structure Dec where
  man : Int
  exp : Nat
deriving DecidableEq

/-- Rational number denoted by a scaled decimal. -/
def Dec.toRat (d : Dec) : ℚ := (d.man : ℚ) / 10 ^ d.exp

/-- Strip factors of ten from the mantissa so the representation is canonical. -/
def mkDecAux : Int → Nat → Dec
  | m, 0 => ⟨m, 0⟩
  | m, e + 1 => if m % 10 = 0 then mkDecAux (m / 10) e else ⟨m, e + 1⟩

/-- Canonical scaled decimal for `m / 10 ^ e`. -/
def mkDec (m : Int) (e : Nat) : Dec := mkDecAux m e

/-- Product of two scaled decimals. -/
def Dec.dmul (a b : Dec) : Dec := mkDec (a.man * b.man) (a.exp + b.exp)

/-- Difference of two scaled decimals. -/
def Dec.dsub (a b : Dec) : Dec :=
  mkDec (a.man * (10 : Int) ^ b.exp - b.man * (10 : Int) ^ a.exp) (a.exp + b.exp)

/-- Sum of two scaled decimals. -/
def Dec.dadd (a b : Dec) : Dec :=
  mkDec (a.man * (10 : Int) ^ b.exp + b.man * (10 : Int) ^ a.exp) (a.exp + b.exp)

/-- Absolute value of a scaled decimal. -/
def Dec.dabs (a : Dec) : Dec := ⟨|a.man|, a.exp⟩

/-- Decidable comparison of the denoted rationals (cross multiplication). -/
def Dec.dle (a b : Dec) : Bool :=
  decide (a.man * (10 : Int) ^ b.exp ≤ b.man * (10 : Int) ^ a.exp)

/-- Whether the denoted rational is less than or equal to zero. -/
def Dec.nonpos (a : Dec) : Bool := decide (a.man ≤ 0)

/-- A dataframe cell value. -/
inductive Val where
  | null : Val
  | str : String → Val
  | num : Dec → Val
  | date : Nat → Val
deriving DecidableEq

/-- Test for the true null marker (pandas isnull). -/
def Val.isNull : Val → Bool
  | Val.null => true
  | _ => false

/-- One transaction record, in the fixed eight-column schema of the CSV. -/
structure Row where
  transaction_id : Val
  item : Val
  quantity : Val
  price_per_unit : Val
  total_spent : Val
  payment_method : Val
  location : Val
  transaction_date : Val
deriving DecidableEq

/-- A dataset: an ordered sequence of records. -/
abbrev Df := List Row

/-- The sentinel-missing markers replaced by NaN in stage 1
(df_clean.replace(['', 'ERROR', 'UNKNOWN'], np.nan)). -/
def isSentinel : Val → Bool
  | Val.str s => decide (s = "" ∨ s = "ERROR" ∨ s = "UNKNOWN")
  | _ => false

/-- Normalize one cell: sentinel strings become null, everything else is kept. -/
def normVal (v : Val) : Val := if isSentinel v then Val.null else v

/-- Stage 1 applied to one row: replace sentinels in every column. -/
def normRow (r : Row) : Row :=
  { transaction_id := normVal r.transaction_id
    item := normVal r.item
    quantity := normVal r.quantity
    price_per_unit := normVal r.price_per_unit
    total_spent := normVal r.total_spent
    payment_method := normVal r.payment_method
    location := normVal r.location
    transaction_date := normVal r.transaction_date }

/-- The MENU_PRICES reference table, in dict insertion order.
Denoted prices: Coffee 2.0, Tea 1.5, Sandwich 4.0, Salad 5.0, Cake 3.0,
Cookie 1.0, Smoothie 4.0, Juice 3.0. -/
def MENU_PRICES : List (String × Dec) :=
  [("Coffee", ⟨2, 0⟩), ("Tea", ⟨15, 1⟩), ("Sandwich", ⟨4, 0⟩), ("Salad", ⟨5, 0⟩),
   ("Cake", ⟨3, 0⟩), ("Cookie", ⟨1, 0⟩), ("Smoothie", ⟨4, 0⟩), ("Juice", ⟨3, 0⟩)]

/-- Value of a run of decimal digit characters, or none for anything else. -/
def digitsValAux : List Char → Nat → Option Nat
  | [], acc => some acc
  | c :: cs, acc =>
      if c.isDigit then digitsValAux cs (acc * 10 + (c.toNat - 48)) else none

/-- Value of a nonempty run of decimal digit characters. -/
def digitsVal : List Char → Option Nat
  | [] => none
  | c :: cs => digitsValAux (c :: cs) 0

/-- Split a character list on a separator character. -/
def splitOnChar (sep : Char) : List Char → List (List Char)
  | [] => [[]]
  | c :: rest =>
      let r := splitOnChar sep rest
      if c = sep then [] :: r
      else
        match r with
        | [] => [[c]]
        | h :: t => (c :: h) :: t

/-- Parse an unsigned decimal literal (digits with an optional fraction part). -/
def parseUnsignedChars (cs : List Char) : Option Dec :=
  match splitOnChar '.' cs with
  | [a] => (digitsVal a).map (fun n => mkDec (Int.ofNat n) 0)
  | [a, b] =>
      match digitsVal a, digitsVal b with
      | some n, some f =>
          some (mkDec (Int.ofNat (n * 10 ^ b.length + f)) b.length)
      | _, _ => none
  | _ => none

/-- Parse an optionally signed decimal literal; the numeric grammar used to
model pd.to_numeric on strings. -/
def parseNumStr (s : String) : Option Dec :=
  match s.data with
  | [] => none
  | c :: rest =>
      if c = '-' then (parseUnsignedChars rest).map (fun d => ⟨-d.man, d.exp⟩)
      else if c = '+' then parseUnsignedChars rest
      else parseUnsignedChars (c :: rest)

/-- Model of pd.to_numeric(errors='coerce') on one cell: numbers pass through,
parseable strings become numbers, everything else degrades to null. -/
def toNumeric : Val → Val
  | Val.null => Val.null
  | Val.num d => Val.num d
  | Val.str s =>
      match parseNumStr s with
      | some d => Val.num d
      | none => Val.null
  | Val.date d => Val.num (mkDec (Int.ofNat d) 0)

/-- Forward lookup (item in MENU_PRICES / MENU_PRICES[item]); only a string
cell can equal a dict key. -/
def menuPriceOf : Val → Option Dec
  | Val.str s => (MENU_PRICES.find? (fun kv => decide (kv.1 = s))).map (fun kv => kv.2)
  | _ => none

/-- Reverse lookup used by item inference: the first menu item whose price
equals the parsed price cell (dict iteration order). -/
def inferFromPrice (v : Val) : Option String :=
  match toNumeric v with
  | Val.num p => (MENU_PRICES.find? (fun kv => decide (kv.2 = p))).map (fun kv => kv.1)
  | _ => none

/-- Stage 3 inference applied to one row: a null item is filled from the price
when the parsed price matches a menu price; the price cell itself is unchanged. -/
def inferRow (r : Row) : Row :=
  if r.item.isNull then
    match inferFromPrice r.price_per_unit with
    | some name => { r with item := Val.str name }
    | none => r
  else r

/-- Stage 4 first step applied to one row: coerce the quantity column. -/
def toNumQRow (r : Row) : Row := { r with quantity := toNumeric r.quantity }

/-- Invalid-quantity mask of stage 4: null after coercion, or value at most 0. -/
def invalidQty (r : Row) : Bool :=
  match r.quantity with
  | Val.null => true
  | Val.num d => d.nonpos
  | _ => false

/-- Stage 4 repair applied to one row: an invalid quantity is set to 1. -/
def fixQRow (r : Row) : Row :=
  if invalidQty r then { r with quantity := Val.num ⟨1, 0⟩ } else r

/-- Stage 5 first step applied to one row: coerce the price column. -/
def toNumPRow (r : Row) : Row := { r with price_per_unit := toNumeric r.price_per_unit }

/-- Stage 5 fill applied to one row: a null price is filled from the menu when
the item resolves to the reference table. -/
def fillPriceRow (r : Row) : Row :=
  if r.price_per_unit.isNull then
    match menuPriceOf r.item with
    | some mp => { r with price_per_unit := Val.num mp }
    | none => r
  else r

/-- Condition of the stage 5 correction loop: item in the menu, price not
null, and price different from the menu price. -/
def needsCorrection (r : Row) : Bool :=
  match menuPriceOf r.item with
  | some mp => !r.price_per_unit.isNull && !(decide (r.price_per_unit = Val.num mp))
  | none => false

/-- Stage 5 correction applied to one row: overwrite a wrong price with the
reference price. -/
def correctPriceRow (r : Row) : Row :=
  match menuPriceOf r.item with
  | some mp => if needsCorrection r then { r with price_per_unit := Val.num mp } else r
  | none => r

/-- Elementwise product of the quantity and price columns, with pandas NaN
propagation. -/
def mulVal : Val → Val → Val
  | Val.num a, Val.num b => Val.num (a.dmul b)
  | _, _ => Val.null

/-- Stage 6 applied to one row: unconditionally recompute the total. -/
def recalcRow (r : Row) : Row :=
  { r with total_spent := mulVal r.quantity r.price_per_unit }

/-- Occurrences of a value in a list of cells. -/
def countVal (v : Val) (l : List Val) : Nat := l.countP (fun w => decide (w = v))

/-- Model of Series.mode()[0] restricted to what the pipeline needs: some
value of maximal multiplicity among the listed (non-null) values, or none for
an empty list.  The tie-break (first position reached) is a documented
ambiguity of the source. -/
def modeOf (l : List Val) : Option Val :=
  l.find? (fun v => l.all (fun w => decide (countVal w l ≤ countVal v l)))

/-- Non-null entries of the payment column. -/
def nonNullsPay (df : Df) : List Val :=
  (df.map (fun r => r.payment_method)).filter (fun v => !v.isNull)

/-- Fill value chosen for the payment column: the modal value, or the
fallback constant when the column has no non-null entry. -/
def payValue (df : Df) : Val := (modeOf (nonNullsPay df)).getD (Val.str ("Cash"))

/-- fillna on the payment column, applied to one row. -/
def payFillRow (v : Val) (r : Row) : Row :=
  if r.payment_method.isNull then { r with payment_method := v } else r

/-- Stage 7a: fill missing payment methods with the modal value; a no-op when
nothing is missing (the source guards the whole block). -/
def payFill (df : Df) : Df :=
  if 0 < df.countP (fun r => r.payment_method.isNull) then
    df.map (payFillRow (payValue df))
  else df

/-- Non-null entries of the location column. -/
def nonNullsLoc (df : Df) : List Val :=
  (df.map (fun r => r.location)).filter (fun v => !v.isNull)

/-- Fill value chosen for the location column. -/
def locValue (df : Df) : Val := (modeOf (nonNullsLoc df)).getD (Val.str ("In-store"))

/-- fillna on the location column, applied to one row. -/
def locFillRow (v : Val) (r : Row) : Row :=
  if r.location.isNull then { r with location := v } else r

/-- Stage 7b: fill missing locations with the modal value. -/
def locFill (df : Df) : Df :=
  if 0 < df.countP (fun r => r.location.isNull) then
    df.map (locFillRow (locValue df))
  else df

/-- Null test on the date column. -/
def dateNull (r : Row) : Bool := r.transaction_date.isNull

/-- Stage 8 drop: remove rows with a missing date; the source only runs the
dropna when some date is missing, which is a no-op otherwise. -/
def dateDrop (df : Df) : Df :=
  if 0 < df.countP dateNull then df.filter (fun r => !dateNull r) else df

/-- Date grammar used to model pd.to_datetime on a string: YYYY-MM-DD with
plausible month and day ranges, encoded as a single natural number. -/
def parseDateStr (s : String) : Option Nat :=
  match splitOnChar '-' s.data with
  | [y, m, d] =>
      match digitsVal y, digitsVal m, digitsVal d with
      | some yn, some mn, some dn =>
          if 1 ≤ mn ∧ mn ≤ 12 ∧ 1 ≤ dn ∧ dn ≤ 31 then
            some (yn * 10000 + mn * 100 + dn)
          else none
      | _, _, _ => none
  | _ => none

/-- Model of pd.to_datetime on one cell: null maps to NaT, an existing date
passes through, a numeric cell is read as an epoch offset, and a string must
match the date grammar. -/
def parseDateVal : Val → Option Val
  | Val.null => some Val.null
  | Val.date d => some (Val.date d)
  | Val.num d => some (Val.date ((d.man / (10 : Int) ^ d.exp).toNat))
  | Val.str s => (parseDateStr s).map Val.date

/-- Whether the date cell of a row parses. -/
def dateParses (r : Row) : Bool := (parseDateVal r.transaction_date).isSome

/-- Conversion of one date cell (only used when the whole column parses). -/
def dateParseRow (r : Row) : Row :=
  { r with transaction_date := (parseDateVal r.transaction_date).getD r.transaction_date }

/-- Stage 8 conversion: pd.to_datetime over the whole column inside
try/except — if any cell fails, the whole column is left as it was. -/
def dateParseStep (df : Df) : Df :=
  if df.all dateParses then df.map dateParseRow else df

/-- Row-survival predicate of stage 2 (dropna on Transaction ID). -/
def keepTid (r : Row) : Bool := !r.transaction_id.isNull

/-- Row-survival predicate of stage 3 (dropna on Item after inference). -/
def keepItem (r : Row) : Bool := !r.item.isNull

/-- Stage 1: sentinel normalization over the whole dataset. -/
def stage1 (df : Df) : Df := df.map normRow

/-- Stage 2: drop rows with a missing transaction id. -/
def stage2 (df : Df) : Df := df.filter keepTid

/-- Stage 3: infer items from prices, then drop rows still missing an item. -/
def stage3 (df : Df) : Df := (df.map inferRow).filter keepItem

/-- Stage 4: coerce quantities and set invalid ones to 1 (the source guards
the repair on at least one invalid quantity being present). -/
def stage4 (df : Df) : Df :=
  if 0 < (df.map toNumQRow).countP invalidQty then (df.map toNumQRow).map fixQRow
  else df.map toNumQRow

/-- Stage 5: coerce prices, fill missing ones from the menu, then correct
prices that disagree with the menu. -/
def stage5 (df : Df) : Df :=
  ((df.map toNumPRow).map fillPriceRow).map correctPriceRow

/-- Stage 6: recompute every total. -/
def stage6 (df : Df) : Df := df.map recalcRow

/-- Stage 7: modal fill of payment method, then of location. -/
def stage7 (df : Df) : Df := locFill (payFill df)

/-- Stage 8: drop missing dates, then attempt the whole-column conversion. -/
def stage8 (df : Df) : Df := dateParseStep (dateDrop df)

/-- Dataset state after stage 2. -/
def mid2 (df : Df) : Df := stage2 (stage1 df)

/-- Dataset state after stage 3. -/
def mid3 (df : Df) : Df := stage3 (mid2 df)

/-- Dataset state after stage 4. -/
def mid4 (df : Df) : Df := stage4 (mid3 df)

/-- Dataset state after stage 5. -/
def mid5 (df : Df) : Df := stage5 (mid4 df)

/-- Dataset state after stage 6. -/
def mid6 (df : Df) : Df := stage6 (mid5 df)

/-- Dataset state after the payment fill. -/
def mid7p (df : Df) : Df := payFill (mid6 df)

/-- Dataset state after stage 7. -/
def mid7 (df : Df) : Df := locFill (mid7p df)

/-- Dataset state after the stage 8 dropna. -/
def mid8a (df : Df) : Df := dateDrop (mid7 df)

/-- The full repair pipeline on the dataset (clean_data without the report). -/
def cleanRows (df : Df) : Df := dateParseStep (mid8a df)

/-- Stages 1 and 3 to 6 as one per-row transformation (stage 2 only filters). -/
def rowCore (r : Row) : Row :=
  recalcRow (correctPriceRow (fillPriceRow (toNumPRow (fixQRow (toNumQRow (inferRow (normRow r)))))))

/-- Survival of one input row through the two early dropping stages. -/
def coreKeep (r : Row) : Bool := keepItem (inferRow (normRow r)) && keepTid (normRow r)

/-- The dataset state after stage 6, in pushed map-over-filter form. -/
def coreMapped (df : Df) : Df := (df.filter coreKeep).map rowCore

/-- Payment fill value as a function of the original input (provably the
value stage 7 uses). -/
def payValueOf (df : Df) : Val := payValue (coreMapped df)

/-- Location fill value as a function of the original input. -/
def locValueOf (df : Df) : Val :=
  locValue ((coreMapped df).map (payFillRow (payValueOf df)))

/-- The dataset state after stage 7, in pushed form. -/
def midFull (df : Df) : Df :=
  ((coreMapped df).map (payFillRow (payValueOf df))).map (locFillRow (locValueOf df))

/-- Whether the whole-column date conversion succeeds for this input. -/
def dateAllOk (df : Df) : Bool :=
  ((midFull df).filter (fun r => !dateNull r)).all dateParses

/-- The cells of a row, in column order. -/
def rowCells (r : Row) : List Val :=
  [r.transaction_id, r.item, r.quantity, r.price_per_unit, r.total_spent,
   r.payment_method, r.location, r.transaction_date]

/-- Cells of the whole dataset satisfying a predicate ((df == x).sum().sum()). -/
def countCells (df : Df) (p : Val → Bool) : Nat :=
  ((df.map rowCells).flatten).countP p

/-- The cleaning_report dictionary produced by clean_data, with the
rows_removed_by_operation entries flattened to fields; an entry whose key the
source never inserts is the count zero. -/
structure Report where
  initial_rows : Nat
  error_values_replaced : Nat
  unknown_values_replaced : Nat
  empty_values_replaced : Nat
  missing_transaction_id : Nat
  items_inferred_from_price : Nat
  unresolvable_missing_items : Nat
  invalid_quantities_fixed : Nat
  missing_prices_filled : Nat
  price_corrections : Nat
  total_calculations_fixed : Nat
  payment_methods_filled : Nat
  payment_method_value : Option Val
  locations_filled : Nat
  location_value : Option Val
  missing_transaction_dates : Nat
  dates_converted : Bool
  final_rows : Nat
  total_rows_removed : Nat
deriving DecidableEq

/-- The repair log of one clean_data run, recomputed from the same stage
functions that produce the cleaned rows. -/
def cleanReport (df : Df) : Report :=
  { initial_rows := df.length
    error_values_replaced := countCells df (fun v => decide (v = Val.str ("ERROR")))
    unknown_values_replaced := countCells df (fun v => decide (v = Val.str ("UNKNOWN")))
    empty_values_replaced := countCells df (fun v => decide (v = Val.str ("")))
    missing_transaction_id := (stage1 df).length - (mid2 df).length
    items_inferred_from_price :=
      (mid2 df).countP (fun r => r.item.isNull && !(inferRow r).item.isNull)
    unresolvable_missing_items := (mid2 df).length - (mid3 df).length
    invalid_quantities_fixed := ((mid3 df).map toNumQRow).countP invalidQty
    missing_prices_filled :=
      ((mid4 df).map toNumPRow).countP
        (fun r => r.price_per_unit.isNull && (menuPriceOf r.item).isSome)
    price_corrections :=
      (((mid4 df).map toNumPRow).map fillPriceRow).countP needsCorrection
    total_calculations_fixed := (mid6 df).length
    payment_methods_filled := (mid6 df).countP (fun r => r.payment_method.isNull)
    payment_method_value :=
      if 0 < (mid6 df).countP (fun r => r.payment_method.isNull) then
        some (payValue (mid6 df))
      else none
    locations_filled := (mid7p df).countP (fun r => r.location.isNull)
    location_value :=
      if 0 < (mid7p df).countP (fun r => r.location.isNull) then
        some (locValue (mid7p df))
      else none
    missing_transaction_dates :=
      if 0 < (mid7 df).countP dateNull then (mid7 df).length - (mid8a df).length else 0
    dates_converted := (mid8a df).all dateParses
    final_rows := (cleanRows df).length
    total_rows_removed := df.length - (cleanRows df).length }

/-- The cleaned dataset together with its repair log. -/
def cleanPipe (df : Df) : Df × Report := (cleanRows df, cleanReport df)

/-- clean_data itself: all stages run, then the report is finalized with the
data retention rate.  The retention-rate expression divides by initial_rows,
which in Python raises ZeroDivisionError when the input has no rows; the
Except models that single raise point. -/
def clean_data (df : Df) : Except String (Df × Report × ℚ) :=
  let out := cleanPipe df
  if out.2.initial_rows = 0 then
    Except.error ("ZeroDivisionError: division by zero")
  else
    Except.ok (out.1, out.2, (out.2.final_rows : ℚ) / (out.2.initial_rows : ℚ) * 100)

/-- Per-column diagnostic counts of the Defect Scanner.  The problematic
percentage uses rational division (where numpy produces NaN for an empty
dataset, the rational convention gives 0; no claim depends on that cell). -/
structure ColStats where
  null_values : Nat
  empty_values : Nat
  error_values : Nat
  unknown_values : Nat
  total_problematic : Nat
  problematic_percentage : ℚ
deriving DecidableEq

/-- Diagnostic counts for one column. -/
def colStats (df : Df) (g : Row → Val) : ColStats :=
  let ns := (df.map g).countP (fun v => v.isNull)
  let es := (df.map g).countP (fun v => decide (v = Val.str ("")))
  let er := (df.map g).countP (fun v => decide (v = Val.str ("ERROR")))
  let un := (df.map g).countP (fun v => decide (v = Val.str ("UNKNOWN")))
  { null_values := ns
    empty_values := es
    error_values := er
    unknown_values := un
    total_problematic := ns + es + er + un
    problematic_percentage := ((ns + es + er + un : Nat) : ℚ) / (df.length : ℚ) * 100 }

/-- The eight column projections, in schema order. -/
def colGetters : List (Row → Val) :=
  [fun r => r.transaction_id, fun r => r.item, fun r => r.quantity,
   fun r => r.price_per_unit, fun r => r.total_spent, fun r => r.payment_method,
   fun r => r.location, fun r => r.transaction_date]

/-- The numeric coercion perform_eda applies to its private copy df_calc. -/
def coerceCalcRow (r : Row) : Row :=
  { r with
    quantity := toNumeric r.quantity
    price_per_unit := toNumeric r.price_per_unit
    total_spent := toNumeric r.total_spent }

/-- np.isclose with rtol=1e-9 (and the default atol=1e-8), equal_nan=True. -/
def isCloseVal : Val → Val → Bool
  | Val.num a, Val.num b => ((a.dsub b).dabs).dle (Dec.dadd ⟨1, 8⟩ ((b.dabs).dmul ⟨1, 9⟩))
  | Val.null, Val.null => true
  | _, _ => false

/-- The Calc_Error mask of the consistency check. -/
def calcErrorRow (r : Row) : Bool :=
  !(isCloseVal r.total_spent (mulVal r.quantity r.price_per_unit))

/-- perform_eda: the diagnostic report, plus the dataset as the caller sees
it after the call.  All numeric coercion happens on the copy df_calc; the
input binding is returned untouched. -/
def perform_eda (df : Df) : (List ColStats × Nat) × Df :=
  let stats := colGetters.map (fun g => colStats df g)
  let dfCalc := df.map coerceCalcRow
  let calcErrors := dfCalc.countP calcErrorRow
  ((stats, calcErrors), df)

/-- Stages 1 to 7 as one per-row transformation, given the two fill values. -/
def rowFull (v1 v2 : Val) (r : Row) : Row :=
  locFillRow v2 (payFillRow v1 (rowCore r))

/-- Survival of one input row through all three dropping stages, given the
two fill values. -/
def survivesRowP (v1 v2 : Val) (r : Row) : Bool :=
  !dateNull (rowFull v1 v2 r) && coreKeep r

/-- Per-row transformation of the whole pipeline, given the fill values and
the outcome of the whole-column date conversion. -/
def xformRowP (v1 v2 : Val) (dk : Bool) (r : Row) : Row :=
  if dk then dateParseRow (rowFull v1 v2 r) else rowFull v1 v2 r

/-- Survival of one input row through the pipeline run on df. -/
def survivesRow (df : Df) (r : Row) : Bool :=
  survivesRowP (payValueOf df) (locValueOf df) r

/-- Per-row transformation of the pipeline run on df. -/
def xformRow (df : Df) (r : Row) : Row :=
  xformRowP (payValueOf df) (locValueOf df) (dateAllOk df) r

/-- The per-row property every cleaned row satisfies: no sentinel anywhere,
required fields present, a positive numeric quantity, a price that is null or
numeric and agrees with the menu whenever the item is a menu key, a total
that is exactly the quantity-price product, and no nulls in the categorical
and date columns. -/
def CleanRow (r : Row) : Prop :=
  normRow r = r ∧
  r.transaction_id ≠ Val.null ∧
  r.item ≠ Val.null ∧
  (∃ q : Dec, r.quantity = Val.num q ∧ 0 < q.man) ∧
  (∀ mp : Dec, menuPriceOf r.item = some mp → r.price_per_unit = Val.num mp) ∧
  (r.price_per_unit = Val.null ∨ ∃ p : Dec, r.price_per_unit = Val.num p) ∧
  r.total_spent = mulVal r.quantity r.price_per_unit ∧
  r.payment_method ≠ Val.null ∧
  r.location ≠ Val.null ∧
  r.transaction_date ≠ Val.null

/-- A well-formed raw row used as a concrete test vector. -/
def rawCoffee : Row :=
  { transaction_id := Val.str ("TXN_001")
    item := Val.str ("Coffee")
    quantity := Val.str ("2")
    price_per_unit := Val.str ("2.0")
    total_spent := Val.str ("4.0")
    payment_method := Val.str ("Cash")
    location := Val.str ("Takeaway")
    transaction_date := Val.str ("2023-01-15") }

/-- A raw row whose quantity is the ERROR sentinel. -/
def rawQtyError : Row :=
  { rawCoffee with transaction_id := Val.str ("TXN_002"), quantity := Val.str ("ERROR") }

/-- A raw row whose item is present but is not a key of the reference table,
and whose price is missing. -/
def rawPizza : Row :=
  { transaction_id := Val.str ("TXN_003")
    item := Val.str ("Pizza")
    quantity := Val.str ("3")
    price_per_unit := Val.null
    total_spent := Val.str ("9")
    payment_method := Val.str ("Cash")
    location := Val.str ("In-store")
    transaction_date := Val.str ("2023-02-02") }

/-- The cleaned form of rawCoffee. -/
def cleanedCoffee : Row :=
  { transaction_id := Val.str ("TXN_001")
    item := Val.str ("Coffee")
    quantity := Val.num ⟨2, 0⟩
    price_per_unit := Val.num ⟨2, 0⟩
    total_spent := Val.num ⟨4, 0⟩
    payment_method := Val.str ("Cash")
    location := Val.str ("Takeaway")
    transaction_date := Val.date 20230115 }

/-- The cleaned form of rawQtyError: its quantity was repaired to 1 and its
total recomputed. -/
def cleanedQtyError : Row :=
  { cleanedCoffee with
    transaction_id := Val.str ("TXN_002")
    quantity := Val.num ⟨1, 0⟩
    total_spent := Val.num ⟨2, 0⟩ }

/-- A raw row like rawPizza but with a parseable numeric price (7.5), to
exercise the general non-menu-item case where the price is present. -/
def rawPizzaPriced : Row :=
  { transaction_id := Val.str ("TXN_004")
    item := Val.str ("Pizza")
    quantity := Val.str ("3")
    price_per_unit := Val.str ("7.5")
    total_spent := Val.str ("9")
    payment_method := Val.str ("Cash")
    location := Val.str ("In-store")
    transaction_date := Val.str ("2023-02-02") }

/-- The cleaned form of rawPizza: the unknown item survives, the price stays
null and the recomputed total is null. -/
def cleanedPizza : Row :=
  { transaction_id := Val.str ("TXN_003")
    item := Val.str ("Pizza")
    quantity := Val.num ⟨3, 0⟩
    price_per_unit := Val.null
    total_spent := Val.null
    payment_method := Val.str ("Cash")
    location := Val.str ("In-store")
    transaction_date := Val.date 20230202 }

/-! Basic facts about cell values and sentinel normalization. -/

@[simp] theorem isNull_null : Val.isNull Val.null = true := rfl

@[simp] theorem isNull_str (s : String) : (Val.str s).isNull = false := rfl

@[simp] theorem isNull_num (d : Dec) : (Val.num d).isNull = false := rfl

@[simp] theorem isNull_date (n : Nat) : (Val.date n).isNull = false := rfl

theorem isNull_eq_false_iff {v : Val} : v.isNull = false ↔ v ≠ Val.null := by
  cases v <;> simp [Val.isNull]

theorem isNull_eq_true_iff {v : Val} : v.isNull = true ↔ v = Val.null := by
  cases v <;> simp [Val.isNull]

@[simp] theorem isSentinel_null : isSentinel Val.null = false := rfl

@[simp] theorem isSentinel_num (d : Dec) : isSentinel (Val.num d) = false := rfl

@[simp] theorem isSentinel_date (n : Nat) : isSentinel (Val.date n) = false := rfl

@[simp] theorem normVal_null : normVal Val.null = Val.null := rfl

@[simp] theorem normVal_num (d : Dec) : normVal (Val.num d) = Val.num d := rfl

@[simp] theorem normVal_date (n : Nat) : normVal (Val.date n) = Val.date n := rfl

theorem normVal_of_sentinel {v : Val} (h : isSentinel v = true) : normVal v = Val.null := by
  simp [normVal, h]

theorem normVal_of_not_sentinel {v : Val} (h : isSentinel v = false) : normVal v = v := by
  simp [normVal, h]

theorem isSentinel_normVal (v : Val) : isSentinel (normVal v) = false := by
  by_cases h : isSentinel v = true
  · rw [normVal_of_sentinel h]; rfl
  · have h0 : isSentinel v = false := by simpa using h
    rw [normVal_of_not_sentinel h0]; exact h0

theorem normVal_idem (v : Val) : normVal (normVal v) = normVal v :=
  normVal_of_not_sentinel (isSentinel_normVal v)

theorem not_sentinel_of_fixed {v : Val} (hv : normVal v = v) : isSentinel v = false := by
  rw [← hv]; exact isSentinel_normVal v

theorem normVal_ne_null {v : Val} (h1 : v ≠ Val.null) (h2 : isSentinel v = false) :
    normVal v ≠ Val.null := by
  rw [normVal_of_not_sentinel h2]; exact h1

/-! Projections of the per-row stage functions. -/

@[simp] theorem normRow_tid (r : Row) :
    (normRow r).transaction_id = normVal r.transaction_id := rfl

@[simp] theorem normRow_item (r : Row) : (normRow r).item = normVal r.item := rfl

@[simp] theorem normRow_qty (r : Row) : (normRow r).quantity = normVal r.quantity := rfl

@[simp] theorem normRow_price (r : Row) :
    (normRow r).price_per_unit = normVal r.price_per_unit := rfl

@[simp] theorem normRow_total (r : Row) :
    (normRow r).total_spent = normVal r.total_spent := rfl

@[simp] theorem normRow_pay (r : Row) :
    (normRow r).payment_method = normVal r.payment_method := rfl

@[simp] theorem normRow_loc (r : Row) : (normRow r).location = normVal r.location := rfl

@[simp] theorem normRow_date (r : Row) :
    (normRow r).transaction_date = normVal r.transaction_date := rfl

theorem normRow_idem (r : Row) : normRow (normRow r) = normRow r := by
  simp [normRow, normVal_idem]

theorem normRow_eq_self {r : Row} : normRow r = r ↔
    normVal r.transaction_id = r.transaction_id ∧ normVal r.item = r.item ∧
    normVal r.quantity = r.quantity ∧ normVal r.price_per_unit = r.price_per_unit ∧
    normVal r.total_spent = r.total_spent ∧ normVal r.payment_method = r.payment_method ∧
    normVal r.location = r.location ∧ normVal r.transaction_date = r.transaction_date := by
  cases r
  simp [normRow, Row.mk.injEq]

@[simp] theorem inferRow_tid (r : Row) :
    (inferRow r).transaction_id = r.transaction_id := by
  unfold inferRow
  split
  · split <;> rfl
  · rfl

@[simp] theorem inferRow_qty (r : Row) : (inferRow r).quantity = r.quantity := by
  unfold inferRow
  split
  · split <;> rfl
  · rfl

@[simp] theorem inferRow_price (r : Row) :
    (inferRow r).price_per_unit = r.price_per_unit := by
  unfold inferRow
  split
  · split <;> rfl
  · rfl

@[simp] theorem inferRow_total (r : Row) : (inferRow r).total_spent = r.total_spent := by
  unfold inferRow
  split
  · split <;> rfl
  · rfl

@[simp] theorem inferRow_pay (r : Row) :
    (inferRow r).payment_method = r.payment_method := by
  unfold inferRow
  split
  · split <;> rfl
  · rfl

@[simp] theorem inferRow_loc (r : Row) : (inferRow r).location = r.location := by
  unfold inferRow
  split
  · split <;> rfl
  · rfl

@[simp] theorem inferRow_date (r : Row) :
    (inferRow r).transaction_date = r.transaction_date := by
  unfold inferRow
  split
  · split <;> rfl
  · rfl

theorem inferRow_of_item_present {r : Row} (h : r.item.isNull = false) : inferRow r = r := by
  simp [inferRow, h]

theorem inferFromPrice_some {v : Val} {name : String} (h : inferFromPrice v = some name) :
    ∃ kv, kv ∈ MENU_PRICES ∧ kv.1 = name := by
  unfold inferFromPrice at h
  split at h
  · rcases Option.map_eq_some'.mp h with ⟨kv, hkv, hn⟩
    exact ⟨kv, List.mem_of_find?_eq_some hkv, hn⟩
  · exact absurd h (by simp)

theorem inferRow_item_cases (r : Row) :
    (inferRow r).item = r.item ∨
      ∃ kv, kv ∈ MENU_PRICES ∧ (inferRow r).item = Val.str kv.1 := by
  unfold inferRow
  split
  · split
    · rename_i name hn
      exact Or.inr (by rcases inferFromPrice_some hn with ⟨kv, hkv, h1⟩; exact ⟨kv, hkv, by simp [h1]⟩)
    · exact Or.inl rfl
  · exact Or.inl rfl

@[simp] theorem toNumQRow_qty (r : Row) : (toNumQRow r).quantity = toNumeric r.quantity := rfl

@[simp] theorem toNumQRow_tid (r : Row) :
    (toNumQRow r).transaction_id = r.transaction_id := rfl

@[simp] theorem toNumQRow_item (r : Row) : (toNumQRow r).item = r.item := rfl

@[simp] theorem toNumQRow_price (r : Row) :
    (toNumQRow r).price_per_unit = r.price_per_unit := rfl

@[simp] theorem toNumQRow_total (r : Row) : (toNumQRow r).total_spent = r.total_spent := rfl

@[simp] theorem toNumQRow_pay (r : Row) :
    (toNumQRow r).payment_method = r.payment_method := rfl

@[simp] theorem toNumQRow_loc (r : Row) : (toNumQRow r).location = r.location := rfl

@[simp] theorem toNumQRow_date (r : Row) :
    (toNumQRow r).transaction_date = r.transaction_date := rfl

theorem fixQRow_of_valid {r : Row} (h : invalidQty r = false) : fixQRow r = r := by
  simp [fixQRow, h]

@[simp] theorem fixQRow_tid (r : Row) : (fixQRow r).transaction_id = r.transaction_id := by
  unfold fixQRow; split <;> rfl

@[simp] theorem fixQRow_item (r : Row) : (fixQRow r).item = r.item := by
  unfold fixQRow; split <;> rfl

@[simp] theorem fixQRow_price (r : Row) : (fixQRow r).price_per_unit = r.price_per_unit := by
  unfold fixQRow; split <;> rfl

@[simp] theorem fixQRow_total (r : Row) : (fixQRow r).total_spent = r.total_spent := by
  unfold fixQRow; split <;> rfl

@[simp] theorem fixQRow_pay (r : Row) : (fixQRow r).payment_method = r.payment_method := by
  unfold fixQRow; split <;> rfl

@[simp] theorem fixQRow_loc (r : Row) : (fixQRow r).location = r.location := by
  unfold fixQRow; split <;> rfl

@[simp] theorem fixQRow_date (r : Row) :
    (fixQRow r).transaction_date = r.transaction_date := by
  unfold fixQRow; split <;> rfl

@[simp] theorem toNumPRow_price (r : Row) :
    (toNumPRow r).price_per_unit = toNumeric r.price_per_unit := rfl

@[simp] theorem toNumPRow_tid (r : Row) :
    (toNumPRow r).transaction_id = r.transaction_id := rfl

@[simp] theorem toNumPRow_item (r : Row) : (toNumPRow r).item = r.item := rfl

@[simp] theorem toNumPRow_qty (r : Row) : (toNumPRow r).quantity = r.quantity := rfl

@[simp] theorem toNumPRow_total (r : Row) : (toNumPRow r).total_spent = r.total_spent := rfl

@[simp] theorem toNumPRow_pay (r : Row) :
    (toNumPRow r).payment_method = r.payment_method := rfl

@[simp] theorem toNumPRow_loc (r : Row) : (toNumPRow r).location = r.location := rfl

@[simp] theorem toNumPRow_date (r : Row) :
    (toNumPRow r).transaction_date = r.transaction_date := rfl

@[simp] theorem fillPriceRow_tid (r : Row) :
    (fillPriceRow r).transaction_id = r.transaction_id := by
  unfold fillPriceRow
  split
  · split <;> rfl
  · rfl

@[simp] theorem fillPriceRow_item (r : Row) : (fillPriceRow r).item = r.item := by
  unfold fillPriceRow
  split
  · split <;> rfl
  · rfl

@[simp] theorem fillPriceRow_qty (r : Row) : (fillPriceRow r).quantity = r.quantity := by
  unfold fillPriceRow
  split
  · split <;> rfl
  · rfl

@[simp] theorem fillPriceRow_total (r : Row) :
    (fillPriceRow r).total_spent = r.total_spent := by
  unfold fillPriceRow
  split
  · split <;> rfl
  · rfl

@[simp] theorem fillPriceRow_pay (r : Row) :
    (fillPriceRow r).payment_method = r.payment_method := by
  unfold fillPriceRow
  split
  · split <;> rfl
  · rfl

@[simp] theorem fillPriceRow_loc (r : Row) : (fillPriceRow r).location = r.location := by
  unfold fillPriceRow
  split
  · split <;> rfl
  · rfl

@[simp] theorem fillPriceRow_date (r : Row) :
    (fillPriceRow r).transaction_date = r.transaction_date := by
  unfold fillPriceRow
  split
  · split <;> rfl
  · rfl

@[simp] theorem correctPriceRow_tid (r : Row) :
    (correctPriceRow r).transaction_id = r.transaction_id := by
  unfold correctPriceRow
  split
  · split <;> rfl
  · rfl

@[simp] theorem correctPriceRow_item (r : Row) : (correctPriceRow r).item = r.item := by
  unfold correctPriceRow
  split
  · split <;> rfl
  · rfl

@[simp] theorem correctPriceRow_qty (r : Row) : (correctPriceRow r).quantity = r.quantity := by
  unfold correctPriceRow
  split
  · split <;> rfl
  · rfl

@[simp] theorem correctPriceRow_total (r : Row) :
    (correctPriceRow r).total_spent = r.total_spent := by
  unfold correctPriceRow
  split
  · split <;> rfl
  · rfl

@[simp] theorem correctPriceRow_pay (r : Row) :
    (correctPriceRow r).payment_method = r.payment_method := by
  unfold correctPriceRow
  split
  · split <;> rfl
  · rfl

@[simp] theorem correctPriceRow_loc (r : Row) :
    (correctPriceRow r).location = r.location := by
  unfold correctPriceRow
  split
  · split <;> rfl
  · rfl

@[simp] theorem correctPriceRow_date (r : Row) :
    (correctPriceRow r).transaction_date = r.transaction_date := by
  unfold correctPriceRow
  split
  · split <;> rfl
  · rfl

@[simp] theorem recalcRow_total (r : Row) :
    (recalcRow r).total_spent = mulVal r.quantity r.price_per_unit := rfl

@[simp] theorem recalcRow_tid (r : Row) :
    (recalcRow r).transaction_id = r.transaction_id := rfl

@[simp] theorem recalcRow_item (r : Row) : (recalcRow r).item = r.item := rfl

@[simp] theorem recalcRow_qty (r : Row) : (recalcRow r).quantity = r.quantity := rfl

@[simp] theorem recalcRow_price (r : Row) :
    (recalcRow r).price_per_unit = r.price_per_unit := rfl

@[simp] theorem recalcRow_pay (r : Row) :
    (recalcRow r).payment_method = r.payment_method := rfl

@[simp] theorem recalcRow_loc (r : Row) : (recalcRow r).location = r.location := rfl

@[simp] theorem recalcRow_date (r : Row) :
    (recalcRow r).transaction_date = r.transaction_date := rfl

@[simp] theorem payFillRow_tid (v : Val) (r : Row) :
    (payFillRow v r).transaction_id = r.transaction_id := by
  unfold payFillRow; split <;> rfl

@[simp] theorem payFillRow_item (v : Val) (r : Row) : (payFillRow v r).item = r.item := by
  unfold payFillRow; split <;> rfl

@[simp] theorem payFillRow_qty (v : Val) (r : Row) :
    (payFillRow v r).quantity = r.quantity := by
  unfold payFillRow; split <;> rfl

@[simp] theorem payFillRow_price (v : Val) (r : Row) :
    (payFillRow v r).price_per_unit = r.price_per_unit := by
  unfold payFillRow; split <;> rfl

@[simp] theorem payFillRow_total (v : Val) (r : Row) :
    (payFillRow v r).total_spent = r.total_spent := by
  unfold payFillRow; split <;> rfl

@[simp] theorem payFillRow_loc (v : Val) (r : Row) :
    (payFillRow v r).location = r.location := by
  unfold payFillRow; split <;> rfl

@[simp] theorem payFillRow_date (v : Val) (r : Row) :
    (payFillRow v r).transaction_date = r.transaction_date := by
  unfold payFillRow; split <;> rfl

theorem payFillRow_of_present {v : Val} {r : Row} (h : r.payment_method.isNull = false) :
    payFillRow v r = r := by
  simp [payFillRow, h]

@[simp] theorem locFillRow_tid (v : Val) (r : Row) :
    (locFillRow v r).transaction_id = r.transaction_id := by
  unfold locFillRow; split <;> rfl

@[simp] theorem locFillRow_item (v : Val) (r : Row) : (locFillRow v r).item = r.item := by
  unfold locFillRow; split <;> rfl

@[simp] theorem locFillRow_qty (v : Val) (r : Row) :
    (locFillRow v r).quantity = r.quantity := by
  unfold locFillRow; split <;> rfl

@[simp] theorem locFillRow_price (v : Val) (r : Row) :
    (locFillRow v r).price_per_unit = r.price_per_unit := by
  unfold locFillRow; split <;> rfl

@[simp] theorem locFillRow_total (v : Val) (r : Row) :
    (locFillRow v r).total_spent = r.total_spent := by
  unfold locFillRow; split <;> rfl

@[simp] theorem locFillRow_pay (v : Val) (r : Row) :
    (locFillRow v r).payment_method = r.payment_method := by
  unfold locFillRow; split <;> rfl

@[simp] theorem locFillRow_date (v : Val) (r : Row) :
    (locFillRow v r).transaction_date = r.transaction_date := by
  unfold locFillRow; split <;> rfl

theorem locFillRow_of_present {v : Val} {r : Row} (h : r.location.isNull = false) :
    locFillRow v r = r := by
  simp [locFillRow, h]

@[simp] theorem dateParseRow_date (r : Row) :
    (dateParseRow r).transaction_date =
      (parseDateVal r.transaction_date).getD r.transaction_date := rfl

@[simp] theorem dateParseRow_tid (r : Row) :
    (dateParseRow r).transaction_id = r.transaction_id := rfl

@[simp] theorem dateParseRow_item (r : Row) : (dateParseRow r).item = r.item := rfl

@[simp] theorem dateParseRow_qty (r : Row) : (dateParseRow r).quantity = r.quantity := rfl

@[simp] theorem dateParseRow_price (r : Row) :
    (dateParseRow r).price_per_unit = r.price_per_unit := rfl

@[simp] theorem dateParseRow_total (r : Row) :
    (dateParseRow r).total_spent = r.total_spent := rfl

@[simp] theorem dateParseRow_pay (r : Row) :
    (dateParseRow r).payment_method = r.payment_method := rfl

@[simp] theorem dateParseRow_loc (r : Row) : (dateParseRow r).location = r.location := rfl

/-! Shapes of coerced cells and products. -/

@[simp] theorem toNumeric_null : toNumeric Val.null = Val.null := rfl

@[simp] theorem toNumeric_num (d : Dec) : toNumeric (Val.num d) = Val.num d := rfl

theorem toNumeric_cases (v : Val) :
    toNumeric v = Val.null ∨ ∃ d, toNumeric v = Val.num d := by
  cases v with
  | null => exact Or.inl rfl
  | num d => exact Or.inr ⟨d, rfl⟩
  | date n => exact Or.inr ⟨_, rfl⟩
  | str s =>
      cases h : parseNumStr s with
      | none => exact Or.inl (by simp [toNumeric, h])
      | some d => exact Or.inr ⟨d, by simp [toNumeric, h]⟩

@[simp] theorem mulVal_null_right (v : Val) : mulVal v Val.null = Val.null := by
  cases v <;> rfl

@[simp] theorem mulVal_null_left (v : Val) : mulVal Val.null v = Val.null := rfl

@[simp] theorem mulVal_num_num (a b : Dec) :
    mulVal (Val.num a) (Val.num b) = Val.num (a.dmul b) := rfl

/-! List helpers and guard-elimination lemmas: each guarded stage equals its
unguarded map/filter form, because the guard only skips a no-op. -/

theorem map_eq_self_of {α : Type} {f : α → α} :
    ∀ {l : List α}, (∀ a ∈ l, f a = a) → l.map f = l := by
  intro l
  induction l with
  | nil => intro _; rfl
  | cons a t ih =>
      intro h
      simp only [List.map_cons]
      rw [h a (List.mem_cons_self a t), ih (fun x hx => h x (List.mem_cons_of_mem a hx))]

theorem stage4_eq (df : Df) : stage4 df = df.map (fun r => fixQRow (toNumQRow r)) := by
  unfold stage4
  by_cases h : 0 < (df.map toNumQRow).countP invalidQty
  · rw [if_pos h, List.map_map]; rfl
  · rw [if_neg h]
    have hall := List.countP_eq_zero.mp (Nat.eq_zero_of_not_pos h)
    refine List.map_congr_left (fun a ha => ?_)
    have hv : invalidQty (toNumQRow a) = false := by
      simpa using hall (toNumQRow a) (List.mem_map_of_mem toNumQRow ha)
    rw [fixQRow_of_valid hv]

theorem payFill_eq (df : Df) : payFill df = df.map (payFillRow (payValue df)) := by
  unfold payFill
  by_cases h : 0 < df.countP (fun r => r.payment_method.isNull)
  · rw [if_pos h]
  · rw [if_neg h]
    have hall := List.countP_eq_zero.mp (Nat.eq_zero_of_not_pos h)
    symm
    refine map_eq_self_of (fun a ha => ?_)
    exact payFillRow_of_present (by simpa using hall a ha)

theorem locFill_eq (df : Df) : locFill df = df.map (locFillRow (locValue df)) := by
  unfold locFill
  by_cases h : 0 < df.countP (fun r => r.location.isNull)
  · rw [if_pos h]
  · rw [if_neg h]
    have hall := List.countP_eq_zero.mp (Nat.eq_zero_of_not_pos h)
    symm
    refine map_eq_self_of (fun a ha => ?_)
    exact locFillRow_of_present (by simpa using hall a ha)

theorem dateDrop_eq (df : Df) : dateDrop df = df.filter (fun r => !dateNull r) := by
  unfold dateDrop
  by_cases h : 0 < df.countP dateNull
  · rw [if_pos h]
  · rw [if_neg h]
    have hall := List.countP_eq_zero.mp (Nat.eq_zero_of_not_pos h)
    symm
    rw [List.filter_eq_self]
    intro a ha
    simpa using hall a ha

theorem dateParseStep_eq (df : Df) :
    dateParseStep df = df.map (fun r => if df.all dateParses then dateParseRow r else r) := by
  unfold dateParseStep
  by_cases h : df.all dateParses
  · rw [if_pos h]
    exact List.map_congr_left (fun a _ => by rw [if_pos h])
  · rw [if_neg h]
    symm
    exact map_eq_self_of (fun a _ => by rw [if_neg h])

theorem coreMapped_eq (df : Df) : mid6 df = coreMapped df := by
  show stage6 (stage5 (stage4 (stage3 (stage2 (stage1 df))))) = _
  simp only [stage6, stage5, stage3, stage2, stage1, stage4_eq,
    List.map_map, List.filter_map, List.filter_filter]
  rw [List.filter_congr (fun a _ => (rfl :
    ((keepItem ∘ inferRow ∘ normRow) a && (keepTid ∘ normRow) a) = coreKeep a))]
  exact List.map_congr_left (fun a _ => rfl)

theorem mid7p_eq (df : Df) : mid7p df = (coreMapped df).map (payFillRow (payValueOf df)) := by
  show payFill (mid6 df) = _
  rw [payFill_eq, coreMapped_eq]
  rfl

theorem mid7_eq (df : Df) : mid7 df = midFull df := by
  show locFill (mid7p df) = _
  rw [locFill_eq, mid7p_eq]
  rfl

theorem mid8a_eq (df : Df) : mid8a df = (midFull df).filter (fun r => !dateNull r) := by
  show dateDrop (mid7 df) = _
  rw [dateDrop_eq, mid7_eq]

/-- The whole pipeline as one transformation-after-selection pass: the
cleaned dataset is the per-row update of exactly the surviving input rows,
in input order. -/
theorem cleanRows_char (df : Df) :
    cleanRows df = (df.filter (survivesRow df)).map (xformRow df) := by
  show dateParseStep (mid8a df) = _
  rw [dateParseStep_eq, mid8a_eq]
  rw [show (((midFull df).filter (fun r => !dateNull r)).all dateParses) = dateAllOk df
    from rfl]
  have hmf : midFull df =
      (df.filter coreKeep).map
        (fun r => locFillRow (locValueOf df) (payFillRow (payValueOf df) (rowCore r))) := by
    show (((df.filter coreKeep).map rowCore).map (payFillRow (payValueOf df))).map
        (locFillRow (locValueOf df)) = _
    rw [List.map_map, List.map_map]
    exact List.map_congr_left (fun a _ => rfl)
  rw [hmf, List.filter_map, List.filter_filter, List.map_map]
  rw [List.filter_congr (fun a _ => (rfl : _ = survivesRow df a))]
  refine List.map_congr_left (fun a _ => ?_)
  show (if dateAllOk df then dateParseRow (rowFull (payValueOf df) (locValueOf df) a)
        else rowFull (payValueOf df) (locValueOf df) a) = xformRow df a
  rfl

/-! Sentinel-freedom is preserved by every per-row stage function: the only
values the pipeline writes are numbers, dates, menu keys and fill values. -/

theorem menu_key_not_sentinel : ∀ kv ∈ MENU_PRICES, isSentinel (Val.str kv.1) = false := by
  decide

theorem normVal_toNumeric (v : Val) : normVal (toNumeric v) = toNumeric v := by
  rcases toNumeric_cases v with h | ⟨d, h⟩ <;> rw [h] <;> simp

theorem normVal_mulVal (a b : Val) : normVal (mulVal a b) = mulVal a b := by
  cases a <;> cases b <;> simp [mulVal]

theorem nf_inferRow {r : Row} (h : normRow r = r) : normRow (inferRow r) = inferRow r := by
  rw [normRow_eq_self] at h ⊢
  obtain ⟨h1, h2, h3, h4, h5, h6, h7, h8⟩ := h
  refine ⟨by simpa using h1, ?_, by simpa using h3, by simpa using h4,
    by simpa using h5, by simpa using h6, by simpa using h7, by simpa using h8⟩
  rcases inferRow_item_cases r with hc | ⟨kv, hkv, hc⟩
  · rw [hc]; exact h2
  · rw [hc]; exact normVal_of_not_sentinel (menu_key_not_sentinel kv hkv)

theorem nf_toNumQRow {r : Row} (h : normRow r = r) : normRow (toNumQRow r) = toNumQRow r := by
  rw [normRow_eq_self] at h ⊢
  obtain ⟨h1, h2, h3, h4, h5, h6, h7, h8⟩ := h
  exact ⟨by simpa using h1, by simpa using h2, by simp [normVal_toNumeric],
    by simpa using h4, by simpa using h5, by simpa using h6, by simpa using h7,
    by simpa using h8⟩

theorem nf_fixQRow {r : Row} (h : normRow r = r) : normRow (fixQRow r) = fixQRow r := by
  rw [normRow_eq_self] at h ⊢
  obtain ⟨h1, h2, h3, h4, h5, h6, h7, h8⟩ := h
  refine ⟨by simpa using h1, by simpa using h2, ?_, by simpa using h4,
    by simpa using h5, by simpa using h6, by simpa using h7, by simpa using h8⟩
  by_cases hv : invalidQty r
  · simp [fixQRow, hv]
  · rw [fixQRow_of_valid (by simpa using hv)]; exact h3

theorem nf_toNumPRow {r : Row} (h : normRow r = r) : normRow (toNumPRow r) = toNumPRow r := by
  rw [normRow_eq_self] at h ⊢
  obtain ⟨h1, h2, h3, h4, h5, h6, h7, h8⟩ := h
  exact ⟨by simpa using h1, by simpa using h2, by simpa using h3,
    by simp [normVal_toNumeric], by simpa using h5, by simpa using h6,
    by simpa using h7, by simpa using h8⟩

theorem fillPriceRow_price_cases (r : Row) :
    (fillPriceRow r).price_per_unit = r.price_per_unit ∨
      ∃ mp, menuPriceOf r.item = some mp ∧ (fillPriceRow r).price_per_unit = Val.num mp := by
  unfold fillPriceRow
  split
  · split
    · rename_i mp hmp; exact Or.inr ⟨mp, hmp, rfl⟩
    · exact Or.inl rfl
  · exact Or.inl rfl

theorem nf_fillPriceRow {r : Row} (h : normRow r = r) :
    normRow (fillPriceRow r) = fillPriceRow r := by
  rw [normRow_eq_self] at h ⊢
  obtain ⟨h1, h2, h3, h4, h5, h6, h7, h8⟩ := h
  refine ⟨by simpa using h1, by simpa using h2, by simpa using h3, ?_,
    by simpa using h5, by simpa using h6, by simpa using h7, by simpa using h8⟩
  rcases fillPriceRow_price_cases r with hc | ⟨mp, _, hc⟩
  · rw [hc]; exact h4
  · rw [hc]; simp

theorem correctPriceRow_price_cases (r : Row) :
    (correctPriceRow r).price_per_unit = r.price_per_unit ∨
      ∃ mp, menuPriceOf r.item = some mp ∧ (correctPriceRow r).price_per_unit = Val.num mp := by
  unfold correctPriceRow
  split
  · rename_i mp hmp
    split
    · exact Or.inr ⟨mp, hmp, rfl⟩
    · exact Or.inl rfl
  · exact Or.inl rfl

theorem nf_correctPriceRow {r : Row} (h : normRow r = r) :
    normRow (correctPriceRow r) = correctPriceRow r := by
  rw [normRow_eq_self] at h ⊢
  obtain ⟨h1, h2, h3, h4, h5, h6, h7, h8⟩ := h
  refine ⟨by simpa using h1, by simpa using h2, by simpa using h3, ?_,
    by simpa using h5, by simpa using h6, by simpa using h7, by simpa using h8⟩
  rcases correctPriceRow_price_cases r with hc | ⟨mp, _, hc⟩
  · rw [hc]; exact h4
  · rw [hc]; simp

theorem nf_recalcRow {r : Row} (h : normRow r = r) : normRow (recalcRow r) = recalcRow r := by
  rw [normRow_eq_self] at h ⊢
  obtain ⟨h1, h2, h3, h4, h5, h6, h7, h8⟩ := h
  exact ⟨by simpa using h1, by simpa using h2, by simpa using h3, by simpa using h4,
    by simp [normVal_mulVal], by simpa using h6, by simpa using h7, by simpa using h8⟩

theorem nf_payFillRow {v : Val} {r : Row} (hv : normVal v = v) (h : normRow r = r) :
    normRow (payFillRow v r) = payFillRow v r := by
  rw [normRow_eq_self] at h ⊢
  obtain ⟨h1, h2, h3, h4, h5, h6, h7, h8⟩ := h
  refine ⟨by simpa using h1, by simpa using h2, by simpa using h3, by simpa using h4,
    by simpa using h5, ?_, by simpa using h7, by simpa using h8⟩
  unfold payFillRow
  split
  · simpa using hv
  · simpa using h6

theorem nf_locFillRow {v : Val} {r : Row} (hv : normVal v = v) (h : normRow r = r) :
    normRow (locFillRow v r) = locFillRow v r := by
  rw [normRow_eq_self] at h ⊢
  obtain ⟨h1, h2, h3, h4, h5, h6, h7, h8⟩ := h
  refine ⟨by simpa using h1, by simpa using h2, by simpa using h3, by simpa using h4,
    by simpa using h5, by simpa using h6, ?_, by simpa using h8⟩
  unfold locFillRow
  split
  · simpa using hv
  · simpa using h7

theorem parseDateVal_shape {v w : Val} (hv : v ≠ Val.null) (h : parseDateVal v = some w) :
    ∃ n, w = Val.date n := by
  cases v with
  | null => exact absurd rfl hv
  | date n => exact ⟨n, by cases h; rfl⟩
  | num d => exact ⟨_, by cases h; rfl⟩
  | str s =>
      unfold parseDateVal at h
      rcases Option.map_eq_some'.mp h with ⟨n, _, hn⟩
      exact ⟨n, hn.symm⟩

theorem dateParseRow_date_cases (r : Row) :
    (dateParseRow r).transaction_date = r.transaction_date ∨
      ∃ n, (dateParseRow r).transaction_date = Val.date n := by
  rw [dateParseRow_date]
  cases h : parseDateVal r.transaction_date with
  | none => exact Or.inl rfl
  | some w =>
      by_cases hv : r.transaction_date = Val.null
      · rw [hv] at h
        cases h; exact Or.inl (by simp [hv])
      · rcases parseDateVal_shape hv h with ⟨n, hn⟩
        exact Or.inr ⟨n, by simp [hn]⟩

theorem nf_dateParseRow {r : Row} (h : normRow r = r) :
    normRow (dateParseRow r) = dateParseRow r := by
  rw [normRow_eq_self] at h ⊢
  obtain ⟨h1, h2, h3, h4, h5, h6, h7, h8⟩ := h
  refine ⟨by simpa using h1, by simpa using h2, by simpa using h3, by simpa using h4,
    by simpa using h5, by simpa using h6, by simpa using h7, ?_⟩
  rcases dateParseRow_date_cases r with hc | ⟨n, hc⟩
  · rw [hc]; exact h8
  · rw [hc]; simp

/-! Unconditional facts about the composed per-row core (stages 1, 3 to 6). -/

theorem normRow_rowCore (r : Row) : normRow (rowCore r) = rowCore r := by
  unfold rowCore
  exact nf_recalcRow (nf_correctPriceRow (nf_fillPriceRow (nf_toNumPRow (nf_fixQRow
    (nf_toNumQRow (nf_inferRow (normRow_idem r)))))))

theorem rowCore_tid (r : Row) :
    (rowCore r).transaction_id = (normRow r).transaction_id := by
  simp [rowCore]

theorem rowCore_item (r : Row) : (rowCore r).item = (inferRow (normRow r)).item := by
  simp [rowCore]

theorem rowCore_pay (r : Row) :
    (rowCore r).payment_method = (normRow r).payment_method := by
  simp [rowCore]

theorem rowCore_loc (r : Row) : (rowCore r).location = (normRow r).location := by
  simp [rowCore]

theorem rowCore_date (r : Row) :
    (rowCore r).transaction_date = (normRow r).transaction_date := by
  simp [rowCore]

theorem rowCore_total (r : Row) :
    (rowCore r).total_spent = mulVal (rowCore r).quantity (rowCore r).price_per_unit := by
  simp [rowCore]

theorem rowCore_quantity (r : Row) :
    ∃ q : Dec, (rowCore r).quantity = Val.num q ∧ 0 < q.man := by
  have hq : (rowCore r).quantity = (fixQRow (toNumQRow (inferRow (normRow r)))).quantity := by
    simp [rowCore]
  set r1 := inferRow (normRow r) with hr1
  by_cases hv : invalidQty (toNumQRow r1)
  · exact ⟨⟨1, 0⟩, by rw [hq]; simp [fixQRow, hv], by norm_num⟩
  · have hval : invalidQty (toNumQRow r1) = false := by simpa using hv
    rw [fixQRow_of_valid hval] at hq
    rcases toNumeric_cases r1.quantity with hn | ⟨d, hn⟩
    · exfalso
      have : invalidQty (toNumQRow r1) = true := by
        simp [invalidQty, toNumQRow_qty, hn]
      rw [this] at hval; cases hval
    · refine ⟨d, by rw [hq]; simpa using hn, ?_⟩
      have : d.nonpos = false := by
        have : invalidQty (toNumQRow r1) = d.nonpos := by
          simp [invalidQty, toNumQRow_qty, hn]
        rw [this] at hval; exact hval
      have hle : ¬ d.man ≤ 0 := by simpa [Dec.nonpos] using this
      omega

theorem priceFix_menu {r4 : Row} :
    ∀ mp : Dec, menuPriceOf r4.item = some mp →
      (correctPriceRow (fillPriceRow r4)).price_per_unit = Val.num mp := by
  intro mp hmp
  by_cases hnull : r4.price_per_unit.isNull
  · have hfill : fillPriceRow r4 = { r4 with price_per_unit := Val.num mp } := by
      simp [fillPriceRow, hnull, hmp]
    have hmenu5 : menuPriceOf (fillPriceRow r4).item = some mp := by
      rw [fillPriceRow_item]; exact hmp
    have hnc : needsCorrection (fillPriceRow r4) = false := by
      unfold needsCorrection
      rw [hmenu5, hfill]
      simp
    unfold correctPriceRow
    rw [hmenu5, hnc]
    simp [hfill]
  · have hfill : fillPriceRow r4 = r4 := by simp [fillPriceRow, hnull]
    have hmenu5 : menuPriceOf (fillPriceRow r4).item = some mp := by
      rw [fillPriceRow_item]; exact hmp
    have hred : correctPriceRow (fillPriceRow r4) =
        if needsCorrection (fillPriceRow r4) then
          { fillPriceRow r4 with price_per_unit := Val.num mp }
        else fillPriceRow r4 := by
      simp only [correctPriceRow, hmenu5]
    rw [hred]
    by_cases hc : needsCorrection (fillPriceRow r4)
    · rw [if_pos hc]
    · rw [if_neg hc]
      have hfalse : needsCorrection (fillPriceRow r4) = false := by simpa using hc
      simp only [needsCorrection, hmenu5] at hfalse
      rw [hfill] at hfalse ⊢
      rcases Bool.and_eq_false_iff.mp hfalse with h1 | h2
      · have h1b : r4.price_per_unit.isNull = true := by simpa using h1
        rw [isNull_eq_true_iff.mp h1b] at hnull
        cases hnull rfl
      · have h2b : decide (r4.price_per_unit = Val.num mp) = true := by simpa using h2
        exact of_decide_eq_true h2b

theorem rowCore_price_menu (r : Row) :
    ∀ mp : Dec, menuPriceOf (rowCore r).item = some mp →
      (rowCore r).price_per_unit = Val.num mp := by
  intro mp hmp
  have hi : (rowCore r).item = (toNumPRow (fixQRow (toNumQRow (inferRow (normRow r))))).item := by
    simp [rowCore]
  have hp : (rowCore r).price_per_unit =
      (correctPriceRow (fillPriceRow (toNumPRow (fixQRow (toNumQRow (inferRow (normRow r))))))).price_per_unit := by
    simp [rowCore]
  rw [hp]
  exact priceFix_menu mp (by rw [← hi]; exact hmp)

theorem rowCore_price_shape (r : Row) :
    (rowCore r).price_per_unit = Val.null ∨
      ∃ p : Dec, (rowCore r).price_per_unit = Val.num p := by
  have hp : (rowCore r).price_per_unit =
      (correctPriceRow (fillPriceRow (toNumPRow (fixQRow (toNumQRow (inferRow (normRow r))))))).price_per_unit := by
    simp [rowCore]
  set r4 := toNumPRow (fixQRow (toNumQRow (inferRow (normRow r)))) with hr4
  have h4 : r4.price_per_unit = Val.null ∨ ∃ p, r4.price_per_unit = Val.num p := by
    rw [hr4, toNumPRow_price]
    exact toNumeric_cases _
  rcases correctPriceRow_price_cases (fillPriceRow r4) with hc | ⟨mp, _, hc⟩
  · rcases fillPriceRow_price_cases r4 with hf | ⟨mp, _, hf⟩
    · rw [hp, hc, hf]; exact h4
    · rw [hp, hc, hf]; exact Or.inr ⟨mp, rfl⟩
  · rw [hp, hc]; exact Or.inr ⟨mp, rfl⟩

/-! Properties of the modal fill values. -/

theorem modeOf_mem {l : List Val} {v : Val} (h : modeOf l = some v) : v ∈ l :=
  List.mem_of_find?_eq_some h

theorem payValue_props {df : Df} (hn : ∀ r ∈ df, normRow r = r) :
    payValue df ≠ Val.null ∧ isSentinel (payValue df) = false := by
  unfold payValue
  cases h : modeOf (nonNullsPay df) with
  | none => exact ⟨by simp, by simp [isSentinel]⟩
  | some v =>
      have hv := modeOf_mem h
      unfold nonNullsPay at hv
      rw [List.mem_filter] at hv
      obtain ⟨hv1, hv2⟩ := hv
      rcases List.mem_map.mp hv1 with ⟨r, hr, hvr⟩
      have hvn : v ≠ Val.null := isNull_eq_false_iff.mp (by simpa using hv2)
      have hfix : normVal v = v := by
        rw [← hvr]
        have := congrArg Row.payment_method (hn r hr)
        simpa using this
      exact ⟨by simpa using hvn, by simpa using not_sentinel_of_fixed hfix⟩

theorem locValue_props {df : Df} (hn : ∀ r ∈ df, normRow r = r) :
    locValue df ≠ Val.null ∧ isSentinel (locValue df) = false := by
  unfold locValue
  cases h : modeOf (nonNullsLoc df) with
  | none => exact ⟨by simp, by simp [isSentinel]⟩
  | some v =>
      have hv := modeOf_mem h
      unfold nonNullsLoc at hv
      rw [List.mem_filter] at hv
      obtain ⟨hv1, hv2⟩ := hv
      rcases List.mem_map.mp hv1 with ⟨r, hr, hvr⟩
      have hvn : v ≠ Val.null := isNull_eq_false_iff.mp (by simpa using hv2)
      have hfix : normVal v = v := by
        rw [← hvr]
        have := congrArg Row.location (hn r hr)
        simpa using this
      exact ⟨by simpa using hvn, by simpa using not_sentinel_of_fixed hfix⟩

theorem nf_coreMapped (df : Df) : ∀ r ∈ coreMapped df, normRow r = r := by
  intro r hr
  rcases List.mem_map.mp hr with ⟨a, _, ha⟩
  rw [← ha]
  exact normRow_rowCore a

theorem payValueOf_props (df : Df) :
    payValueOf df ≠ Val.null ∧ isSentinel (payValueOf df) = false :=
  payValue_props (nf_coreMapped df)

theorem locValueOf_props (df : Df) :
    locValueOf df ≠ Val.null ∧ isSentinel (locValueOf df) = false := by
  refine locValue_props ?_
  intro r hr
  rcases List.mem_map.mp hr with ⟨a, ha, har⟩
  rw [← har]
  exact nf_payFillRow (normVal_of_not_sentinel (payValueOf_props df).2)
    (nf_coreMapped df a ha)

/-! Soundness: every row produced by the pipeline satisfies CleanRow. -/

theorem cleanRow_dateParseRow {r : Row} (h : CleanRow r) : CleanRow (dateParseRow r) := by
  obtain ⟨c1, c2, c3, c4, c5, c6, c7, c8, c9, c10⟩ := h
  refine ⟨nf_dateParseRow c1, by simpa using c2, by simpa using c3, ?_, ?_, ?_, ?_,
    by simpa using c8, by simpa using c9, ?_⟩
  · simpa using c4
  · simpa using c5
  · simpa using c6
  · simpa using c7
  · rcases dateParseRow_date_cases r with hc | ⟨n, hc⟩
    · rw [hc]; exact c10
    · rw [hc]; simp

theorem rowFull_clean (v1 v2 : Val) (r : Row)
    (hv1n : v1 ≠ Val.null) (hv1s : isSentinel v1 = false)
    (hv2n : v2 ≠ Val.null) (hv2s : isSentinel v2 = false)
    (hkt : (normRow r).transaction_id.isNull = false)
    (hki : (inferRow (normRow r)).item.isNull = false)
    (hdt : (rowFull v1 v2 r).transaction_date.isNull = false) :
    CleanRow (rowFull v1 v2 r) := by
  have hq := rowCore_quantity r
  have hpm := rowCore_price_menu r
  have hps := rowCore_price_shape r
  have ht := rowCore_total r
  have hnf := normRow_rowCore r
  refine ⟨?_, ?_, ?_, ?_, ?_, ?_, ?_, ?_, ?_, ?_⟩
  · exact nf_locFillRow (normVal_of_not_sentinel hv2s)
      (nf_payFillRow (normVal_of_not_sentinel hv1s) hnf)
  · show (rowFull v1 v2 r).transaction_id ≠ Val.null
    have : (rowFull v1 v2 r).transaction_id = (normRow r).transaction_id := by
      simp [rowFull, rowCore_tid]
    rw [this]
    exact isNull_eq_false_iff.mp hkt
  · have : (rowFull v1 v2 r).item = (inferRow (normRow r)).item := by
      simp [rowFull, rowCore_item]
    rw [this]
    exact isNull_eq_false_iff.mp hki
  · have : (rowFull v1 v2 r).quantity = (rowCore r).quantity := by simp [rowFull]
    rw [this]; exact hq
  · have hi : (rowFull v1 v2 r).item = (rowCore r).item := by simp [rowFull]
    have hp : (rowFull v1 v2 r).price_per_unit = (rowCore r).price_per_unit := by
      simp [rowFull]
    rw [hi, hp]; exact hpm
  · have hp : (rowFull v1 v2 r).price_per_unit = (rowCore r).price_per_unit := by
      simp [rowFull]
    rw [hp]; exact hps
  · have h1 : (rowFull v1 v2 r).total_spent = (rowCore r).total_spent := by simp [rowFull]
    have h2 : (rowFull v1 v2 r).quantity = (rowCore r).quantity := by simp [rowFull]
    have h3 : (rowFull v1 v2 r).price_per_unit = (rowCore r).price_per_unit := by
      simp [rowFull]
    rw [h1, h2, h3]; exact ht
  · have hpay : (rowFull v1 v2 r).payment_method =
        (payFillRow v1 (rowCore r)).payment_method := by simp [rowFull]
    rw [hpay]
    by_cases hc : (rowCore r).payment_method.isNull
    · rw [show (payFillRow v1 (rowCore r)).payment_method = v1 by simp [payFillRow, hc]]
      exact hv1n
    · rw [payFillRow_of_present (by simpa using hc)]
      exact isNull_eq_false_iff.mp (by simpa using hc)
  · show (rowFull v1 v2 r).location ≠ Val.null
    have hloc : (payFillRow v1 (rowCore r)).location = (rowCore r).location := by simp
    by_cases hc : (rowCore r).location.isNull
    · have hv : (rowFull v1 v2 r).location = v2 := by
        show (locFillRow v2 (payFillRow v1 (rowCore r))).location = v2
        unfold locFillRow
        rw [if_pos (by rw [hloc]; exact hc)]
      rw [hv]; exact hv2n
    · have hv : (rowFull v1 v2 r).location = (rowCore r).location := by
        show (locFillRow v2 (payFillRow v1 (rowCore r))).location = _
        rw [locFillRow_of_present (by rw [hloc]; simpa using hc)]
        exact hloc
      rw [hv]
      exact isNull_eq_false_iff.mp (by simpa using hc)
  · exact isNull_eq_false_iff.mp hdt

theorem xformRowP_clean (v1 v2 : Val) (dk : Bool) (r : Row)
    (hv1n : v1 ≠ Val.null) (hv1s : isSentinel v1 = false)
    (hv2n : v2 ≠ Val.null) (hv2s : isSentinel v2 = false)
    (hs : survivesRowP v1 v2 r = true) :
    CleanRow (xformRowP v1 v2 dk r) := by
  unfold survivesRowP at hs
  rcases Bool.and_eq_true_iff.mp hs with ⟨hd, hk⟩
  rcases Bool.and_eq_true_iff.mp (by simpa [coreKeep] using hk) with ⟨hki, hkt⟩
  have hki2 : (inferRow (normRow r)).item.isNull = false := by simpa [keepItem] using hki
  have hkt2 : (normRow r).transaction_id.isNull = false := by simpa [keepTid] using hkt
  have hdt : (rowFull v1 v2 r).transaction_date.isNull = false := by
    simpa [dateNull] using hd
  have h9 : CleanRow (rowFull v1 v2 r) :=
    rowFull_clean v1 v2 r hv1n hv1s hv2n hv2s hkt2 hki2 hdt
  unfold xformRowP
  by_cases hdk : dk
  · rw [if_pos hdk]; exact cleanRow_dateParseRow h9
  · rw [if_neg hdk]; exact h9

theorem cleanRows_clean (df : Df) : ∀ r ∈ cleanRows df, CleanRow r := by
  intro r hr
  rw [cleanRows_char] at hr
  rcases List.mem_map.mp hr with ⟨a, ha, har⟩
  rw [List.mem_filter] at ha
  rw [← har]
  have hp := payValueOf_props df
  have hl := locValueOf_props df
  exact xformRowP_clean (payValueOf df) (locValueOf df) (dateAllOk df) a
    hp.1 hp.2 hl.1 hl.2 ha.2

/-! Bridge lemmas from scaled decimals to the rationals they denote. -/

theorem toRat_mkDecAux : ∀ (e : Nat) (m : Int), (mkDecAux m e).toRat = (m : ℚ) / 10 ^ e := by
  intro e
  induction e with
  | zero => intro m; rfl
  | succ e ih =>
      intro m
      unfold mkDecAux
      by_cases h : m % 10 = 0
      · rw [if_pos h, ih]
        obtain ⟨k, hk⟩ := Int.dvd_of_emod_eq_zero h
        rw [hk, Int.mul_ediv_cancel_left k (by norm_num)]
        rw [pow_succ]
        push_cast
        field_simp
        ring
      · rw [if_neg h]; rfl

theorem toRat_mkDec (m : Int) (e : Nat) : (mkDec m e).toRat = (m : ℚ) / 10 ^ e :=
  toRat_mkDecAux e m

theorem Dec.toRat_dmul (a b : Dec) : (a.dmul b).toRat = a.toRat * b.toRat := by
  unfold Dec.dmul
  rw [toRat_mkDec]
  unfold Dec.toRat
  rw [pow_add, div_mul_div_comm]
  push_cast
  ring

theorem Dec.toRat_pos {d : Dec} (h : 0 < d.man) : 0 < d.toRat := by
  unfold Dec.toRat
  apply div_pos
  · exact_mod_cast h
  · positivity

/-- The denoted reference prices, in table order, are exactly the prices the
source dictionary lists. -/
theorem menu_prices_denote :
    MENU_PRICES.map (fun kv => kv.2.toRat) = [2, 3/2, 4, 5, 3, 1, 4, 3] := by
  simp [MENU_PRICES, Dec.toRat]
  norm_num

/-! Projections of the composed per-row pipeline transformation. -/

theorem xformRow_item (df : Df) (r : Row) : (xformRow df r).item = (rowCore r).item := by
  unfold xformRow xformRowP
  by_cases hdk : dateAllOk df
  · rw [if_pos hdk]; simp [rowFull]
  · rw [if_neg hdk]; simp [rowFull]

theorem xformRow_price (df : Df) (r : Row) :
    (xformRow df r).price_per_unit = (rowCore r).price_per_unit := by
  unfold xformRow xformRowP
  by_cases hdk : dateAllOk df
  · rw [if_pos hdk]; simp [rowFull]
  · rw [if_neg hdk]; simp [rowFull]

theorem xformRow_total (df : Df) (r : Row) :
    (xformRow df r).total_spent = (rowCore r).total_spent := by
  unfold xformRow xformRowP
  by_cases hdk : dateAllOk df
  · rw [if_pos hdk]; simp [rowFull]
  · rw [if_neg hdk]; simp [rowFull]

/-! Claim C1.  As stated it is false: stage 3 drops only rows whose item is
null, so a non-null item that is not a reference-table key survives, refuting
the universal "item is a key of the reference price table".  The counterexample
is the one-row dataset [rawPizza].  The amended claim keeps what is true: every
surviving item is non-null, and whenever it is a table key the price equals
the table value. -/

/-- Claim C1, counterexample: on the dataset [rawPizza] the pipeline keeps a
row whose item (Pizza) is not a key of the reference price table. -/
theorem price_table_claim_cex :
    ¬ (∀ r ∈ cleanRows [rawPizza], (menuPriceOf r.item).isSome = true ∧
        (∀ mp : Dec, menuPriceOf r.item = some mp → r.price_per_unit = Val.num mp)) := by
  intro h
  have hmem : cleanedPizza ∈ cleanRows [rawPizza] := by decide
  have hsome := (h cleanedPizza hmem).1
  have hnone : (menuPriceOf cleanedPizza.item).isSome = false := by decide
  rw [hnone] at hsome
  cases hsome

/-- Claim C1, amended: every surviving row has a non-null item, and whenever
that item is a key of the reference price table, the price equals the
reference value. -/
theorem surviving_price_agrees_with_menu (df : Df) (r : Row) (h : r ∈ cleanRows df) :
    r.item ≠ Val.null ∧
      (∀ mp : Dec, menuPriceOf r.item = some mp → r.price_per_unit = Val.num mp) := by
  have hc := cleanRows_clean df r h
  exact ⟨hc.2.2.1, hc.2.2.2.2.1⟩

/-- Witness for the amended claim C1 at a concrete input. -/
theorem surviving_price_agrees_with_menu_witness :
    cleanedCoffee ∈ cleanRows [rawCoffee] ∧
      (cleanedCoffee.item ≠ Val.null ∧
        (∀ mp : Dec, menuPriceOf cleanedCoffee.item = some mp →
          cleanedCoffee.price_per_unit = Val.num mp)) :=
  ⟨by decide, surviving_price_agrees_with_menu [rawCoffee] cleanedCoffee (by decide)⟩

/-! Claim C2.  The guarantee "clean_data never raises, even on the empty
dataset" is the spec's stated intent, but the code divides by initial_rows
when finalizing data_retention_rate, which raises ZeroDivisionError on a
0-row input; every non-empty input does finish normally. -/

/-- Claim C2: evaluating the pipeline at the failing input (the empty
dataset) reaches the ZeroDivisionError of the retention-rate computation. -/
theorem clean_data_empty_raises :
    clean_data [] = Except.error ("ZeroDivisionError: division by zero") := rfl

/-! Claim C4: for every surviving row the stored total is exactly the
product of the quantity and price columns (with null propagation), and when
both factors are numeric the denoted rational of the total is exactly the
product of the denoted rationals. -/

/-- Claim C4: surviving totals equal quantity times price exactly. -/
theorem surviving_total_eq_product (df : Df) (r : Row) (h : r ∈ cleanRows df) :
    r.total_spent = mulVal r.quantity r.price_per_unit ∧
      (∀ a b : Dec, r.quantity = Val.num a → r.price_per_unit = Val.num b →
        ∃ c : Dec, r.total_spent = Val.num c ∧ c.toRat = a.toRat * b.toRat) := by
  have hc := cleanRows_clean df r h
  have htot := hc.2.2.2.2.2.2.1
  refine ⟨htot, fun a b ha hb => ?_⟩
  refine ⟨a.dmul b, ?_, Dec.toRat_dmul a b⟩
  rw [htot, ha, hb]
  rfl

/-- Witness for claim C4 at a concrete input. -/
theorem surviving_total_eq_product_witness :
    cleanedQtyError ∈ cleanRows [rawQtyError] ∧
      (cleanedQtyError.total_spent =
          mulVal cleanedQtyError.quantity cleanedQtyError.price_per_unit ∧
        (∀ a b : Dec, cleanedQtyError.quantity = Val.num a →
          cleanedQtyError.price_per_unit = Val.num b →
          ∃ c : Dec, cleanedQtyError.total_spent = Val.num c ∧
            c.toRat = a.toRat * b.toRat)) :=
  ⟨by decide, surviving_total_eq_product [rawQtyError] cleanedQtyError (by decide)⟩

/-! Claim C5: every surviving quantity is a number strictly greater than 0
(invalid quantities, including the ERROR sentinel, were replaced by 1). -/

/-- Claim C5: surviving quantities are numeric and strictly positive. -/
theorem surviving_quantity_positive (df : Df) (r : Row) (h : r ∈ cleanRows df) :
    ∃ q : Dec, r.quantity = Val.num q ∧ 0 < q.toRat := by
  obtain ⟨q, hq, hm⟩ := (cleanRows_clean df r h).2.2.2.1
  exact ⟨q, hq, Dec.toRat_pos hm⟩

/-- Witness for claim C5: the ERROR quantity was repaired to the positive
constant 1. -/
theorem surviving_quantity_positive_witness :
    cleanedQtyError ∈ cleanRows [rawQtyError] ∧
      ∃ q : Dec, cleanedQtyError.quantity = Val.num q ∧ 0 < q.toRat :=
  ⟨by decide, surviving_quantity_positive [rawQtyError] cleanedQtyError (by decide)⟩

/-! Claim C6: no surviving row is missing its transaction id, item or date,
where missing means a true null; the sentinels cannot reappear because
stage 1 erased them and no later stage writes one. -/

/-- Claim C6: the three required fields of a surviving row are neither null
nor a sentinel string. -/
theorem surviving_required_fields (df : Df) (r : Row) (h : r ∈ cleanRows df) :
    (r.transaction_id ≠ Val.null ∧ isSentinel r.transaction_id = false) ∧
      (r.item ≠ Val.null ∧ isSentinel r.item = false) ∧
      (r.transaction_date ≠ Val.null ∧ isSentinel r.transaction_date = false) := by
  have hc := cleanRows_clean df r h
  have h1 : normVal r.transaction_id = r.transaction_id := by
    have := congrArg Row.transaction_id hc.1
    simpa using this
  have h2 : normVal r.item = r.item := by
    have := congrArg Row.item hc.1
    simpa using this
  have h3 : normVal r.transaction_date = r.transaction_date := by
    have := congrArg Row.transaction_date hc.1
    simpa using this
  exact ⟨⟨hc.2.1, not_sentinel_of_fixed h1⟩,
    ⟨hc.2.2.1, not_sentinel_of_fixed h2⟩,
    ⟨hc.2.2.2.2.2.2.2.2.2, not_sentinel_of_fixed h3⟩⟩

/-- Witness for claim C6 at a concrete input. -/
theorem surviving_required_fields_witness :
    cleanedCoffee ∈ cleanRows [rawCoffee] ∧
      ((cleanedCoffee.transaction_id ≠ Val.null ∧
          isSentinel cleanedCoffee.transaction_id = false) ∧
        (cleanedCoffee.item ≠ Val.null ∧ isSentinel cleanedCoffee.item = false) ∧
        (cleanedCoffee.transaction_date ≠ Val.null ∧
          isSentinel cleanedCoffee.transaction_date = false)) :=
  ⟨by decide, surviving_required_fields [rawCoffee] cleanedCoffee (by decide)⟩

/-! Claim C7: the finalized repair log is consistent: rows are removed only
by the transaction-id, item and date stages, each removal is counted once,
and final_rows plus the removal counts reconstructs initial_rows. -/

/-- Claim C7: report row accounting. -/
theorem report_row_accounting (df : Df) :
    (cleanReport df).final_rows ≤ (cleanReport df).initial_rows ∧
      (cleanReport df).initial_rows =
        (cleanReport df).final_rows +
          ((cleanReport df).missing_transaction_id +
            (cleanReport df).unresolvable_missing_items +
            (cleanReport df).missing_transaction_dates) ∧
      (cleanReport df).total_rows_removed =
        (cleanReport df).missing_transaction_id +
          (cleanReport df).unresolvable_missing_items +
          (cleanReport df).missing_transaction_dates := by
  have h1 : (stage1 df).length = df.length := by simp [stage1]
  have h2 : (mid2 df).length ≤ (stage1 df).length := List.length_filter_le _ _
  have h3 : (mid3 df).length ≤ (mid2 df).length := by
    calc (mid3 df).length ≤ ((mid2 df).map inferRow).length :=
          List.length_filter_le _ _
      _ = (mid2 df).length := by simp
  have h46 : (mid6 df).length = (mid3 df).length := by
    show (stage6 (stage5 (mid4 df))).length = _
    simp only [stage6, stage5, mid4, stage4_eq, List.length_map]
  have h7p : (mid7p df).length = (mid6 df).length := by
    show (payFill (mid6 df)).length = _
    rw [payFill_eq]; simp
  have h7 : (mid7 df).length = (mid7p df).length := by
    show (locFill (mid7p df)).length = _
    rw [locFill_eq]; simp
  have h8a : (mid8a df).length ≤ (mid7 df).length := by
    show (dateDrop (mid7 df)).length ≤ _
    rw [dateDrop_eq]; exact List.length_filter_le _ _
  have hfin : (cleanRows df).length = (mid8a df).length := by
    show (dateParseStep (mid8a df)).length = _
    rw [dateParseStep_eq]; simp
  have hrt : (cleanReport df).missing_transaction_id =
      (stage1 df).length - (mid2 df).length := by simp only [cleanReport]
  have hri : (cleanReport df).unresolvable_missing_items =
      (mid2 df).length - (mid3 df).length := by simp only [cleanReport]
  have hin : (cleanReport df).initial_rows = df.length := by simp only [cleanReport]
  have hfr : (cleanReport df).final_rows = (cleanRows df).length := by
    simp only [cleanReport]
  have htr : (cleanReport df).total_rows_removed =
      df.length - (cleanRows df).length := by simp only [cleanReport]
  have hdates : ((cleanReport df).missing_transaction_dates =
      (mid7 df).length - (mid8a df).length) ∨
      ((cleanReport df).missing_transaction_dates = 0 ∧
        (mid8a df).length = (mid7 df).length) := by
    have hdd : (cleanReport df).missing_transaction_dates =
        (if 0 < (mid7 df).countP dateNull then
          (mid7 df).length - (mid8a df).length else 0) := by simp only [cleanReport]
    rw [hdd]
    by_cases hg : 0 < (mid7 df).countP dateNull
    · exact Or.inl (by rw [if_pos hg])
    · refine Or.inr ⟨by rw [if_neg hg], ?_⟩
      show (dateDrop (mid7 df)).length = _
      unfold dateDrop
      rw [if_neg hg]
  rw [hrt, hri, hin, hfr, htr]
  rcases hdates with hd | ⟨hd, he⟩ <;> rw [hd] <;> omega

/-! Claim C8: the Defect Scanner does not mutate its input: the numeric
coercion for the consistency check is applied to the copy df_calc, and the
dataset visible to the caller after the call is the input itself. -/

/-- Claim C8: perform_eda returns its input dataset unchanged. -/
theorem perform_eda_readonly (df : Df) : (perform_eda df).2 = df := rfl

/-! Claim C9: the pipeline never invents or reorders rows: the cleaned
dataset is the per-row field update of exactly the surviving input rows, and
in particular a subsequence of the updated input in the original order. -/

/-- Claim C9: the cleaned dataset is the row transform of the surviving
rows, hence a subsequence of the transformed input. -/
theorem cleanRows_subsequence (df : Df) :
    cleanRows df = (df.filter (survivesRow df)).map (xformRow df) ∧
      List.Sublist (cleanRows df) (df.map (xformRow df)) := by
  refine ⟨cleanRows_char df, ?_⟩
  rw [cleanRows_char df]
  exact (List.filter_sublist df).map (xformRow df)

/-! Claim C10: a row whose item is non-null but not a reference-table key
survives the pipeline, and stage 5 never fills or corrects its price — the
final price is exactly the stage 5 coercion of the sentinel-normalized
original price cell, whatever it was.  In particular, when that coercion is
null (the price was missing or unparseable), the price stays null and the
recomputed total is null as well. -/

/-- Claim C10: a non-menu item survives with its price untouched by stage 5;
a null price stays null and yields a null total. -/
theorem nonmenu_item_price_untouched (df : Df) (r : Row) (hmem : r ∈ df)
    (htid : r.transaction_id ≠ Val.null) (htids : isSentinel r.transaction_id = false)
    (hitem : r.item ≠ Val.null) (hitems : isSentinel r.item = false)
    (hmenu : menuPriceOf r.item = none)
    (hdate : r.transaction_date ≠ Val.null)
    (hdates : isSentinel r.transaction_date = false) :
    xformRow df r ∈ cleanRows df ∧
      (xformRow df r).item = r.item ∧
      (xformRow df r).price_per_unit = toNumeric (normVal r.price_per_unit) ∧
      (toNumeric (normVal r.price_per_unit) = Val.null →
        (xformRow df r).price_per_unit = Val.null ∧
        (xformRow df r).total_spent = Val.null) := by
  have hni : normVal r.item = r.item := normVal_of_not_sentinel hitems
  have hinf : inferRow (normRow r) = normRow r := by
    apply inferRow_of_item_present
    rw [normRow_item, hni]
    exact isNull_eq_false_iff.mpr hitem
  have hcitem : (rowCore r).item = r.item := by
    rw [rowCore_item, hinf, normRow_item, hni]
  have hprice0 : (rowCore r).price_per_unit = toNumeric (normVal r.price_per_unit) := by
    set x := fixQRow (toNumQRow (inferRow (normRow r))) with hx
    have h4p : (toNumPRow x).price_per_unit = toNumeric (normVal r.price_per_unit) := by
      rw [toNumPRow_price, hx, fixQRow_price, toNumQRow_price, hinf, normRow_price]
    have h4i : (toNumPRow x).item = r.item := by
      rw [toNumPRow_item, hx, fixQRow_item, toNumQRow_item, hinf, normRow_item, hni]
    have h5 : fillPriceRow (toNumPRow x) = toNumPRow x := by
      unfold fillPriceRow
      split
      · simp only [h4i, hmenu]
      · rfl
    have h6 : correctPriceRow (toNumPRow x) = toNumPRow x := by
      unfold correctPriceRow
      rw [h4i, hmenu]
    show (recalcRow (correctPriceRow (fillPriceRow (toNumPRow x)))).price_per_unit = _
    rw [recalcRow_price, h5, h6]
    exact h4p
  have hsurv : survivesRow df r = true := by
    show survivesRowP (payValueOf df) (locValueOf df) r = true
    unfold survivesRowP
    refine Bool.and_eq_true_iff.mpr ⟨?_, ?_⟩
    · have : (rowFull (payValueOf df) (locValueOf df) r).transaction_date =
          r.transaction_date := by
        simp [rowFull, rowCore_date, normVal_of_not_sentinel hdates]
      simp [dateNull, this, isNull_eq_false_iff.mpr hdate]
    · unfold coreKeep
      refine Bool.and_eq_true_iff.mpr ⟨?_, ?_⟩
      · simp [keepItem, hinf, hni, isNull_eq_false_iff.mpr hitem]
      · simp [keepTid, normVal_of_not_sentinel htids, isNull_eq_false_iff.mpr htid]
  refine ⟨?_, ?_, ?_, ?_⟩
  · rw [cleanRows_char]
    exact List.mem_map_of_mem (xformRow df) (List.mem_filter.mpr ⟨hmem, hsurv⟩)
  · rw [xformRow_item, hcitem]
  · rw [xformRow_price, hprice0]
  · intro h0
    have htot0 : (rowCore r).total_spent = Val.null := by
      rw [rowCore_total, hprice0, h0]
      exact mulVal_null_right _
    exact ⟨by rw [xformRow_price, hprice0, h0], by rw [xformRow_total, htot0]⟩

/-- Witness for claim C10 at a concrete input whose non-menu item carries a
parseable numeric price. -/
theorem nonmenu_item_price_untouched_witness :
    rawPizzaPriced ∈ [rawPizzaPriced] ∧
      (xformRow [rawPizzaPriced] rawPizzaPriced ∈ cleanRows [rawPizzaPriced] ∧
        (xformRow [rawPizzaPriced] rawPizzaPriced).item = rawPizzaPriced.item ∧
        (xformRow [rawPizzaPriced] rawPizzaPriced).price_per_unit =
          toNumeric (normVal rawPizzaPriced.price_per_unit) ∧
        (toNumeric (normVal rawPizzaPriced.price_per_unit) = Val.null →
          (xformRow [rawPizzaPriced] rawPizzaPriced).price_per_unit = Val.null ∧
          (xformRow [rawPizzaPriced] rawPizzaPriced).total_spent = Val.null)) :=
  ⟨by decide,
    nonmenu_item_price_untouched [rawPizzaPriced] rawPizzaPriced (by decide)
      (by decide) (by decide) (by decide) (by decide) (by decide) (by decide)
      (by decide)⟩

/-! Claim C3: idempotence.  Every stage is the identity on a dataset of
CleanRow rows, and the corresponding log counters are zero. -/

theorem toNumQRow_id {r : Row} (h : toNumeric r.quantity = r.quantity) :
    toNumQRow r = r := by
  cases r; simp_all [toNumQRow]

theorem toNumPRow_id {r : Row} (h : toNumeric r.price_per_unit = r.price_per_unit) :
    toNumPRow r = r := by
  cases r; simp_all [toNumPRow]

theorem recalcRow_id {r : Row} (h : mulVal r.quantity r.price_per_unit = r.total_spent) :
    recalcRow r = r := by
  cases r; simp_all [recalcRow]

theorem dateParseRow_id {r : Row}
    (h : (parseDateVal r.transaction_date).getD r.transaction_date = r.transaction_date) :
    dateParseRow r = r := by
  cases r; simp_all [dateParseRow]

theorem invalidQty_false_of_clean {r : Row} (hc : CleanRow r) : invalidQty r = false := by
  obtain ⟨q, hq, hpos⟩ := hc.2.2.2.1
  simp only [invalidQty, hq, Dec.nonpos]
  simp
  omega

theorem fillPriceRow_id_of_clean {r : Row} (hc : CleanRow r) : fillPriceRow r = r := by
  by_cases hp : r.price_per_unit.isNull
  · have hnull : r.price_per_unit = Val.null := isNull_eq_true_iff.mp hp
    cases hm : menuPriceOf r.item with
    | none => simp [fillPriceRow, hp, hm]
    | some mp =>
        have := hc.2.2.2.2.1 mp hm
        rw [hnull] at this
        cases this
  · simp [fillPriceRow, hp]

theorem needsCorrection_false_of_clean {r : Row} (hc : CleanRow r) :
    needsCorrection r = false := by
  cases hm : menuPriceOf r.item with
  | none => simp [needsCorrection, hm]
  | some mp =>
      have hp := hc.2.2.2.2.1 mp hm
      simp [needsCorrection, hm, hp]

theorem correctPriceRow_id_of_clean {r : Row} (hc : CleanRow r) : correctPriceRow r = r := by
  cases hm : menuPriceOf r.item with
  | none => simp [correctPriceRow, hm]
  | some mp => simp [correctPriceRow, hm, needsCorrection_false_of_clean hc]

theorem stage1_id {l : Df} (h : ∀ r ∈ l, CleanRow r) : stage1 l = l :=
  map_eq_self_of (fun r hr => (h r hr).1)

theorem stage2_id {l : Df} (h : ∀ r ∈ l, CleanRow r) : stage2 l = l := by
  unfold stage2
  rw [List.filter_eq_self]
  intro r hr
  simp [keepTid, isNull_eq_false_iff.mpr (h r hr).2.1]

theorem stage3_id {l : Df} (h : ∀ r ∈ l, CleanRow r) : stage3 l = l := by
  unfold stage3
  rw [map_eq_self_of (fun r hr =>
    inferRow_of_item_present (isNull_eq_false_iff.mpr (h r hr).2.2.1))]
  rw [List.filter_eq_self]
  intro r hr
  simp [keepItem, isNull_eq_false_iff.mpr (h r hr).2.2.1]

theorem toNumQ_map_id {l : Df} (h : ∀ r ∈ l, CleanRow r) : l.map toNumQRow = l :=
  map_eq_self_of (fun r hr => by
    obtain ⟨q, hq, _⟩ := (h r hr).2.2.2.1
    exact toNumQRow_id (by rw [hq]; rfl))

theorem stage4_id {l : Df} (h : ∀ r ∈ l, CleanRow r) : stage4 l = l := by
  rw [stage4_eq]
  apply map_eq_self_of
  intro r hr
  obtain ⟨q, hq, hpos⟩ := (h r hr).2.2.2.1
  rw [toNumQRow_id (by rw [hq]; rfl)]
  exact fixQRow_of_valid (invalidQty_false_of_clean (h r hr))

theorem toNumP_map_id {l : Df} (h : ∀ r ∈ l, CleanRow r) : l.map toNumPRow = l :=
  map_eq_self_of (fun r hr => by
    rcases (h r hr).2.2.2.2.2.1 with hp | ⟨p, hp⟩ <;>
      exact toNumPRow_id (by rw [hp]; rfl))

theorem stage5_id {l : Df} (h : ∀ r ∈ l, CleanRow r) : stage5 l = l := by
  unfold stage5
  rw [toNumP_map_id h]
  rw [map_eq_self_of (fun r hr => fillPriceRow_id_of_clean (h r hr))]
  rw [map_eq_self_of (fun r hr => correctPriceRow_id_of_clean (h r hr))]

theorem stage6_id {l : Df} (h : ∀ r ∈ l, CleanRow r) : stage6 l = l :=
  map_eq_self_of (fun r hr => recalcRow_id (h r hr).2.2.2.2.2.2.1.symm)

theorem payNull_count_zero {l : Df} (h : ∀ r ∈ l, CleanRow r) :
    l.countP (fun r => r.payment_method.isNull) = 0 :=
  List.countP_eq_zero.mpr (fun r hr => by
    simp [isNull_eq_false_iff.mpr (h r hr).2.2.2.2.2.2.2.1])

theorem locNull_count_zero {l : Df} (h : ∀ r ∈ l, CleanRow r) :
    l.countP (fun r => r.location.isNull) = 0 :=
  List.countP_eq_zero.mpr (fun r hr => by
    simp [isNull_eq_false_iff.mpr (h r hr).2.2.2.2.2.2.2.2.1])

theorem dateNull_count_zero {l : Df} (h : ∀ r ∈ l, CleanRow r) :
    l.countP dateNull = 0 :=
  List.countP_eq_zero.mpr (fun r hr => by
    simp [dateNull, isNull_eq_false_iff.mpr (h r hr).2.2.2.2.2.2.2.2.2])

theorem payFill_id {l : Df} (h : ∀ r ∈ l, CleanRow r) : payFill l = l := by
  unfold payFill
  rw [if_neg (by simp [payNull_count_zero h])]

theorem locFill_id {l : Df} (h : ∀ r ∈ l, CleanRow r) : locFill l = l := by
  unfold locFill
  rw [if_neg (by simp [locNull_count_zero h])]

theorem dateDrop_id {l : Df} (h : ∀ r ∈ l, CleanRow r) : dateDrop l = l := by
  unfold dateDrop
  rw [if_neg (by simp [dateNull_count_zero h])]

/-- After stage 8, either the whole date column consists of structured
dates (the conversion succeeded), or some cell still fails to parse (the
column was left as it was, and will fail again). -/
theorem stage8_dates (d : Df) :
    (∀ r ∈ stage8 d, ∃ n, r.transaction_date = Val.date n) ∨
      (stage8 d).all dateParses = false := by
  have hnn : ∀ r ∈ dateDrop d, r.transaction_date.isNull = false := by
    unfold dateDrop
    by_cases hg : 0 < d.countP dateNull
    · rw [if_pos hg]
      intro r hr
      simpa [dateNull] using (List.mem_filter.mp hr).2
    · rw [if_neg hg]
      intro r hr
      simpa [dateNull] using List.countP_eq_zero.mp (Nat.eq_zero_of_not_pos hg) r hr
  unfold stage8 dateParseStep
  by_cases hall : (dateDrop d).all dateParses
  · rw [if_pos hall]
    left
    intro r hr
    rcases List.mem_map.mp hr with ⟨a, ha, har⟩
    have hp : (parseDateVal a.transaction_date).isSome = true := by
      simpa [dateParses] using List.all_eq_true.mp hall a ha
    rcases Option.isSome_iff_exists.mp hp with ⟨w, hw⟩
    have hne : a.transaction_date ≠ Val.null := isNull_eq_false_iff.mp (hnn a ha)
    rcases parseDateVal_shape hne hw with ⟨n, hn⟩
    refine ⟨n, ?_⟩
    rw [← har, dateParseRow_date, hw]
    simp [hn]
  · rw [if_neg hall]
    right
    simpa using hall

/-- Second-run identity and zero logging, for any dataset of CleanRow rows
whose date column is in a stage 8 fixed point. -/
theorem cleanRows_fixed_of_clean {l : Df}
    (hC : ∀ r ∈ l, CleanRow r)
    (hD : (∀ r ∈ l, ∃ n, r.transaction_date = Val.date n) ∨ l.all dateParses = false) :
    cleanRows l = l ∧
      (cleanReport l).missing_transaction_id = 0 ∧
      (cleanReport l).unresolvable_missing_items = 0 ∧
      (cleanReport l).missing_transaction_dates = 0 ∧
      (cleanReport l).total_rows_removed = 0 ∧
      (cleanReport l).items_inferred_from_price = 0 ∧
      (cleanReport l).invalid_quantities_fixed = 0 ∧
      (cleanReport l).price_corrections = 0 ∧
      (cleanReport l).payment_methods_filled = 0 ∧
      (cleanReport l).locations_filled = 0 := by
  have e1 : stage1 l = l := stage1_id hC
  have e2 : mid2 l = l := by show stage2 (stage1 l) = l; rw [e1, stage2_id hC]
  have e3 : mid3 l = l := by show stage3 (mid2 l) = l; rw [e2, stage3_id hC]
  have e4 : mid4 l = l := by show stage4 (mid3 l) = l; rw [e3, stage4_id hC]
  have e5 : mid5 l = l := by show stage5 (mid4 l) = l; rw [e4, stage5_id hC]
  have e6 : mid6 l = l := by show stage6 (mid5 l) = l; rw [e5, stage6_id hC]
  have e7p : mid7p l = l := by show payFill (mid6 l) = l; rw [e6, payFill_id hC]
  have e7 : mid7 l = l := by show locFill (mid7p l) = l; rw [e7p, locFill_id hC]
  have e8a : mid8a l = l := by show dateDrop (mid7 l) = l; rw [e7, dateDrop_id hC]
  have hparse : dateParseStep l = l := by
    unfold dateParseStep
    rcases hD with hdates | hfail
    · have hall : l.all dateParses = true :=
        List.all_eq_true.mpr (fun r hr => by
          rcases hdates r hr with ⟨n, hn⟩
          simp [dateParses, hn, parseDateVal])
      rw [if_pos hall]
      apply map_eq_self_of
      intro r hr
      rcases hdates r hr with ⟨n, hn⟩
      exact dateParseRow_id (by rw [hn]; rfl)
    · rw [if_neg (by simp [hfail])]
  have efix : cleanRows l = l := by
    show dateParseStep (mid8a l) = l
    rw [e8a, hparse]
  refine ⟨efix, ?_, ?_, ?_, ?_, ?_, ?_, ?_, ?_, ?_⟩
  · have hf : (cleanReport l).missing_transaction_id =
        (stage1 l).length - (mid2 l).length := by simp only [cleanReport]
    rw [hf, e1, e2, Nat.sub_self]
  · have hf : (cleanReport l).unresolvable_missing_items =
        (mid2 l).length - (mid3 l).length := by simp only [cleanReport]
    rw [hf, e2, e3, Nat.sub_self]
  · have hf : (cleanReport l).missing_transaction_dates =
        (if 0 < (mid7 l).countP dateNull then (mid7 l).length - (mid8a l).length
         else 0) := by simp only [cleanReport]
    rw [hf, e7, if_neg (by simp [dateNull_count_zero hC])]
  · have hf : (cleanReport l).total_rows_removed =
        l.length - (cleanRows l).length := by simp only [cleanReport]
    rw [hf, efix, Nat.sub_self]
  · have hf : (cleanReport l).items_inferred_from_price =
        (mid2 l).countP (fun r => r.item.isNull && !(inferRow r).item.isNull) := by
      simp only [cleanReport]
    rw [hf, e2]
    exact List.countP_eq_zero.mpr (fun r hr => by
      simp [isNull_eq_false_iff.mpr (hC r hr).2.2.1])
  · have hf : (cleanReport l).invalid_quantities_fixed =
        ((mid3 l).map toNumQRow).countP invalidQty := by simp only [cleanReport]
    rw [hf, e3, toNumQ_map_id hC]
    exact List.countP_eq_zero.mpr (fun r hr => by
      simp [invalidQty_false_of_clean (hC r hr)])
  · have hf : (cleanReport l).price_corrections =
        (((mid4 l).map toNumPRow).map fillPriceRow).countP needsCorrection := by
      simp only [cleanReport]
    rw [hf, e4, toNumP_map_id hC,
      map_eq_self_of (fun r hr => fillPriceRow_id_of_clean (hC r hr))]
    exact List.countP_eq_zero.mpr (fun r hr => by
      simp [needsCorrection_false_of_clean (hC r hr)])
  · have hf : (cleanReport l).payment_methods_filled =
        (mid6 l).countP (fun r => r.payment_method.isNull) := by simp only [cleanReport]
    rw [hf, e6, payNull_count_zero hC]
  · have hf : (cleanReport l).locations_filled =
        (mid7p l).countP (fun r => r.location.isNull) := by simp only [cleanReport]
    rw [hf, e7p, locNull_count_zero hC]

/-- Claim C3: the pipeline is idempotent — a second run on the cleaned
output returns it unchanged, removes no rows, and logs no further item
inferences, quantity repairs, price corrections or categorical fills. -/
theorem pipeline_idempotent (df : Df) :
    cleanRows (cleanRows df) = cleanRows df ∧
      (cleanReport (cleanRows df)).missing_transaction_id = 0 ∧
      (cleanReport (cleanRows df)).unresolvable_missing_items = 0 ∧
      (cleanReport (cleanRows df)).missing_transaction_dates = 0 ∧
      (cleanReport (cleanRows df)).total_rows_removed = 0 ∧
      (cleanReport (cleanRows df)).items_inferred_from_price = 0 ∧
      (cleanReport (cleanRows df)).invalid_quantities_fixed = 0 ∧
      (cleanReport (cleanRows df)).price_corrections = 0 ∧
      (cleanReport (cleanRows df)).payment_methods_filled = 0 ∧
      (cleanReport (cleanRows df)).locations_filled = 0 := by
  refine cleanRows_fixed_of_clean (cleanRows_clean df) ?_
  exact stage8_dates (mid7 df)

end CafeSales
